import Mathlib

/-!
# Verification of the hierarchical virtual-memory translator

Shallow embedding of `src/VirtualMemory.cpp`.  The geometry constants
(`MemoryConstants.h`) and the physical-memory collaborator
(`PhysicalMemory.h`) are not part of the repository sources; they are
modelled from the specification (spec sections 2 and 6).  Everything else is
translated directly from the C++ source.

Machine integers: `word_t` (a signed machine integer) is modelled as `Int`,
`uint64_t` quantities (addresses, offsets, page numbers) as `Nat`.  None of
the arithmetic performed by the program on reachable inputs comes near an
overflow boundary, so no wrap-around is modelled; where a `word_t` value is
used to form an address the C integer promotion is rendered as `Int.toNat`
(the two agree on all non-negative values, and slot values written by the
program are frame indices, hence non-negative).
-/

set_option linter.unusedVariables false

namespace VirtualMemory

/-- Modelled from the spec: the four build-time geometry constants of
`MemoryConstants.h` (spec section 2), which is not under `src/`. -/
structure Geometry where
  OFFSET_WIDTH : Nat
  PHYSICAL_ADDRESS_WIDTH : Nat
  VIRTUAL_ADDRESS_WIDTH : Nat
  TABLES_DEPTH : Nat
deriving DecidableEq

namespace Geometry

/-- `PAGE_SIZE = 2 ^ OFFSET_WIDTH` (spec section 2). -/
def PAGE_SIZE (g : Geometry) : Nat := 2 ^ g.OFFSET_WIDTH

/-- `NUM_FRAMES = 2 ^ (PHYSICAL_ADDRESS_WIDTH - OFFSET_WIDTH)` (spec section 2). -/
def NUM_FRAMES (g : Geometry) : Nat := 2 ^ (g.PHYSICAL_ADDRESS_WIDTH - g.OFFSET_WIDTH)

/-- `VIRTUAL_MEMORY_SIZE = 2 ^ VIRTUAL_ADDRESS_WIDTH` (spec section 2). -/
def VIRTUAL_MEMORY_SIZE (g : Geometry) : Nat := 2 ^ g.VIRTUAL_ADDRESS_WIDTH

/-- `NUM_PAGES = VIRTUAL_MEMORY_SIZE / PAGE_SIZE` (spec section 2). -/
def NUM_PAGES (g : Geometry) : Nat := g.VIRTUAL_MEMORY_SIZE / g.PAGE_SIZE

/-- Modelled from the spec: the valid ranges for the geometry constants given
in spec section 6, together with the `TABLES_DEPTH` equation of section 2
(`TABLES_DEPTH = ceil((VIRTUAL_ADDRESS_WIDTH - OFFSET_WIDTH) / OFFSET_WIDTH)`,
written with the usual natural-number ceiling division). -/
def Valid (g : Geometry) : Prop :=
  1 ≤ g.OFFSET_WIDTH ∧ g.OFFSET_WIDTH < g.PHYSICAL_ADDRESS_WIDTH ∧
  g.OFFSET_WIDTH < g.VIRTUAL_ADDRESS_WIDTH ∧ 2 ≤ g.NUM_FRAMES ∧
  g.TABLES_DEPTH =
    (g.VIRTUAL_ADDRESS_WIDTH - g.OFFSET_WIDTH + g.OFFSET_WIDTH - 1) / g.OFFSET_WIDTH

instance (g : Geometry) : Decidable g.Valid := by
  unfold Valid; exact inferInstance

end Geometry

/-- Modelled from the spec: the state of the physical-memory collaborator
(spec section 6): a word store `mem` and the backing store `swap` holding, for
every page that has ever been evicted, the saved copy of its words (indexed by
in-page offset). -/
structure PMState where
  mem : Nat → Int
  swap : Nat → Option (Nat → Int)

/-- Modelled from the spec (section 6): `read(pa) -> word`. -/
def PMread (st : PMState) (addr : Nat) : Int := st.mem addr

/-- Modelled from the spec (section 6): `write(pa, word)`. -/
def PMwrite (st : PMState) (addr : Nat) (value : Int) : PMState :=
  { st with mem := fun a => if a = addr then value else st.mem a }

/-- Modelled from the spec (section 6): `evict(frame, page)` persists the
frame's contents to the backing store under identifier `page`. -/
def PMevict (g : Geometry) (st : PMState) (frame : Nat) (page : Nat) : PMState :=
  { st with swap := fun p =>
      if p = page then some (fun o => st.mem (frame * g.PAGE_SIZE + o)) else st.swap p }

/-- Modelled from the spec (section 6): `restore(frame, page)` loads the
previously evicted contents of `page` into `frame`, or fills the frame with
zeros if `page` was never evicted. -/
def PMrestore (g : Geometry) (st : PMState) (frame : Nat) (page : Nat) : PMState :=
  { st with mem := fun a =>
      if frame * g.PAGE_SIZE ≤ a ∧ a < frame * g.PAGE_SIZE + g.PAGE_SIZE then
        match st.swap page with
        | some w => w (a - frame * g.PAGE_SIZE)
        | none => 0
      else st.mem a }

/-- The all-zero physical memory with an empty backing store; the state in
which the simulation starts. -/
def PMState.zero : PMState := { mem := fun _ => 0, swap := fun _ => none }

/-- `struct SearchArguments` of `VirtualMemory.cpp` (lines 12-22).  `word_t`
and `int` fields are `Int`, `uint64_t` fields are `Nat`. -/
structure SearchArguments where
  currentFrame : Int
  maxFrame : Int
  pageNumber : Nat
  maxCyclicFrame : Int
  maxCyclicDist : Int
  maxCyclicPage : Nat
  maxCyclicParent : Nat
  emptyFrame : Int
  priority : Int
deriving DecidableEq

/-- `init_offsets` (lines 31-36) in closed form: the loop runs `i` from
`TABLES_DEPTH` down to `0`, masking the low `OFFSET_WIDTH` bits and shifting,
so `offsets[i]` is the value of `virtualAddress >> ((TABLES_DEPTH - i) *
OFFSET_WIDTH)` masked with `PAGE_SIZE - 1`. -/
def init_offsets (g : Geometry) (virtualAddress : Nat) (i : Nat) : Nat :=
  (virtualAddress >>> ((g.TABLES_DEPTH - i) * g.OFFSET_WIDTH)) &&& (g.PAGE_SIZE - 1)

/-- `cyclic_distance` (lines 46-61). -/
def cyclic_distance (g : Geometry) (page_swapped_in : Nat) (p : Nat) : Int :=
  let abs_distance : Nat :=
    if page_swapped_in > p then page_swapped_in - p else p - page_swapped_in
  if abs_distance < g.NUM_PAGES - abs_distance then (abs_distance : Int)
  else ((g.NUM_PAGES - abs_distance : Nat) : Int)

/-- `update_max_cyclic_distance` (lines 73-84). -/
def update_max_cyclic_distance (g : Geometry) (args : SearchArguments) (rootFrame : Int)
    (currentVirtual : Nat) (parent : Nat) (offset : Nat) : SearchArguments :=
  let cyclicDist := cyclic_distance g args.pageNumber currentVirtual
  if cyclicDist ≥ args.maxCyclicDist then
    { args with
      maxCyclicFrame := rootFrame
      maxCyclicDist := cyclicDist
      maxCyclicPage := currentVirtual
      maxCyclicParent := parent * g.PAGE_SIZE + offset }
  else args

/-- `empty_frame_not_found` (lines 93-104). -/
def empty_frame_not_found (g : Geometry) (st : PMState) (args : SearchArguments) :
    SearchArguments × PMState :=
  if args.maxFrame + 1 < (g.NUM_FRAMES : Int) then
    ({ args with priority := 2 }, st)
  else
    let st := PMwrite st args.maxCyclicParent 0
    let st := PMevict g st args.maxCyclicFrame.toNat args.maxCyclicPage
    ({ args with priority := 3 }, st)

/-!
All loops below are rendered as structural recursion on an explicit counter
`n` of remaining iterations (so that the kernel can evaluate them on concrete
inputs); the running index `i` of the C loop is carried alongside, and every
call site starts the loop with `i = 0` and `n` equal to the loop bound, so
that `n = bound - i` throughout.
-/

/-- The `isCurrentRootEmpty` loop of `find_next_frame` (lines 131-141): scan
the `PAGE_SIZE` slots of the frame, stopping at the first non-zero one. -/
def empty_check (g : Geometry) (st : PMState) (rootFrame : Int) (i : Nat) : Nat → Bool
  | 0 => true
  | Nat.succ n =>
    if PMread st (rootFrame.toNat * g.PAGE_SIZE + i) ≠ 0 then false
    else empty_check g st rootFrame (i + 1) n

/-- The slot loop of `find_next_frame` (lines 152-171): iterate `i` over the
`PAGE_SIZE` slots of `rootFrame`, recursing (through `visit`, which
`find_next_frame` instantiates with its own recursive call one level deeper)
into every non-zero child after updating `maxFrame`, and break out of the
loop as soon as priority 1 has committed.  `visit` receives the state, the
arguments, the child frame, the child's virtual page prefix and the slot
index. -/
def fnf_loop (g : Geometry)
    (visit : PMState → SearchArguments → Int → Nat → Nat → SearchArguments × PMState)
    (st : PMState) (args : SearchArguments) (rootFrame : Int)
    (currentVirtual : Nat) (i : Nat) : Nat → SearchArguments × PMState
  | 0 => (args, st)
  | Nat.succ n =>
    let nextFrame := PMread st (rootFrame.toNat * g.PAGE_SIZE + i)
    if nextFrame ≠ 0 then
      let args := if nextFrame ≥ args.maxFrame then { args with maxFrame := nextFrame } else args
      let r := visit st args nextFrame ((currentVirtual <<< g.OFFSET_WIDTH) + i) i
      if r.1.priority = 1 then r
      else fnf_loop g visit r.2 r.1 rootFrame currentVirtual (i + 1) n
    else fnf_loop g visit st args rootFrame currentVirtual (i + 1) n

/-- `find_next_frame` (lines 121-178).  The recursion is structural on
`dfuel = TABLES_DEPTH - depth`, the distance to the leaves; the source's test
`depth == TABLES_DEPTH` becomes `dfuel = 0`, and descending one level
(`depth + 1`) decrements `dfuel`.  The top-level call of the translator,
`find_next_frame(&args, 0, 0, 0, 0, 0)` with `depth = 0`, therefore passes
`dfuel = TABLES_DEPTH`. -/
def find_next_frame (g : Geometry) : (dfuel : Nat) → PMState → SearchArguments → Int →
    Nat → Nat → Nat → SearchArguments × PMState
  | 0, st, args, rootFrame, currentVirtual, parent, offset =>
    (update_max_cyclic_distance g args rootFrame currentVirtual parent offset, st)
  | Nat.succ dfuel, st, args, rootFrame, currentVirtual, parent, offset =>
    let isCurrentRootEmpty := empty_check g st rootFrame 0 g.PAGE_SIZE
    if rootFrame ≠ 0 ∧ rootFrame ≠ args.currentFrame ∧ isCurrentRootEmpty then
      let args := { args with emptyFrame := rootFrame }
      let st := PMwrite st (parent * g.PAGE_SIZE + offset) 0
      ({ args with priority := 1 }, st)
    else
      let r := fnf_loop g
        (fun st args nextFrame childVirtual i =>
          find_next_frame g dfuel st args nextFrame childVirtual rootFrame.toNat i)
        st args rootFrame currentVirtual 0 g.PAGE_SIZE
      if rootFrame = 0 ∧ r.1.priority ≠ 1 then
        empty_frame_not_found g r.2 r.1
      else r

/-- The zeroing loop of `find_physical_address` (lines 228-230): make the
freshly installed frame a fresh inner table. -/
def zero_frame (g : Geometry) (st : PMState) (frame : Int) (j : Nat) : Nat → PMState
  | 0 => st
  | Nat.succ n => zero_frame g (PMwrite st (frame.toNat * g.PAGE_SIZE + j) 0) frame (j + 1) n

/-- The walk loop of `find_physical_address` (lines 196-235).  `currentFrame`
is the `args.currentFrame` of the iteration's `SearchArguments` (the source
rebuilds `args` as `{nextFrame, 0, pageNumber, 0, 0, 0, 0, 0, 0}` at the end
of every iteration, so only `currentFrame` and `pageNumber` carry over), and
the loop runs for `n = TABLES_DEPTH - i` more iterations. -/
def fpa_loop (g : Geometry) (st : PMState) (offsets : Nat → Nat) (pageNumber : Nat)
    (nextFrame : Int) (currentFrame : Int) (i : Nat) : Nat → Int × PMState
  | 0 => (nextFrame, st)
  | Nat.succ n =>
    let nf := PMread st (currentFrame.toNat * g.PAGE_SIZE + offsets i)
    if nf = 0 then
      let args0 : SearchArguments := ⟨currentFrame, 0, pageNumber, 0, 0, 0, 0, 0, 0⟩
      let r := find_next_frame g g.TABLES_DEPTH st args0 0 0 0 0
      let args : SearchArguments := { r.1 with maxFrame := r.1.maxFrame + 1 }
      let st := r.2
      let nf : Int :=
        if args.priority = 1 then args.emptyFrame
        else if args.priority = 2 then args.maxFrame
        else if args.priority = 3 then args.maxCyclicFrame
        else nf
      let st := PMwrite st (currentFrame.toNat * g.PAGE_SIZE + offsets i) nf
      let st :=
        if i = g.TABLES_DEPTH - 1 then PMrestore g st nf.toNat pageNumber
        else zero_frame g st nf 0 g.PAGE_SIZE
      fpa_loop g st offsets pageNumber nf nf (i + 1) n
    else fpa_loop g st offsets pageNumber nf nf (i + 1) n

/-- `find_physical_address` (lines 190-238). -/
def find_physical_address (g : Geometry) (st : PMState) (virtualAddress : Nat)
    (offsets : Nat → Nat) : Int × PMState :=
  fpa_loop g st offsets (virtualAddress >>> g.OFFSET_WIDTH) 0 0 0 g.TABLES_DEPTH

/-- The loop of `VMinitialize` (lines 245-247). -/
def vminit_loop (g : Geometry) (st : PMState) (i : Nat) : Nat → PMState
  | 0 => st
  | Nat.succ n => vminit_loop g (PMwrite st i 0) (i + 1) n

/-- `VMinitialize` (lines 244-248). -/
def VMinitialize (g : Geometry) (st : PMState) : PMState := vminit_loop g st 0 g.PAGE_SIZE

/-- `VMread` (lines 259-275).  The out-parameter is modelled explicitly: the
result is `(return value, *value, state)`, and on failure `*value` is left
untouched. -/
def VMread (g : Geometry) (st : PMState) (virtualAddress : Nat) (value : Int) :
    Nat × Int × PMState :=
  if g.VIRTUAL_MEMORY_SIZE ≤ virtualAddress then (0, value, st)
  else if g.NUM_PAGES ≤ virtualAddress >>> g.OFFSET_WIDTH then (0, value, st)
  else
    let r := find_physical_address g st virtualAddress (init_offsets g virtualAddress)
    (1, PMread r.2 (r.1.toNat * g.PAGE_SIZE + init_offsets g virtualAddress g.TABLES_DEPTH), r.2)

/-- `VMwrite` (lines 285-301). -/
def VMwrite (g : Geometry) (st : PMState) (virtualAddress : Nat) (value : Int) :
    Nat × PMState :=
  if g.VIRTUAL_MEMORY_SIZE ≤ virtualAddress then (0, st)
  else if g.NUM_PAGES ≤ virtualAddress >>> g.OFFSET_WIDTH then (0, st)
  else
    let r := find_physical_address g st virtualAddress (init_offsets g virtualAddress)
    (1, PMwrite r.2 (r.1.toNat * g.PAGE_SIZE + init_offsets g virtualAddress g.TABLES_DEPTH) value)

/-!
## Specification-side descriptions of the DFS

The following pure functions describe, over a fixed memory state, the
structures that `find_next_frame` discovers during its depth-first walk: the
frames it would test for emptiness, the leaf slots it visits, and the slot
values over which it maximises.  They are used to state the correctness
claims about the finder; the theorems below prove that the finder's outputs
agree with them.
-/

/-- A frame is empty when all of its `PAGE_SIZE` words are zero. -/
def frameEmptyB (g : Geometry) (st : PMState) (f : Int) : Bool :=
  (List.range g.PAGE_SIZE).all (fun i => st.mem (f.toNat * g.PAGE_SIZE + i) == 0)

/-- Does the subtree entered at frame `f` with `d` levels above the leaves
contain a frame qualifying for priority 1 (non-root, different from the
protected frame `c`, with all slots zero, at inner depth)?  Mirrors the
region the DFS explores: children are entered through non-zero slots only. -/
def hasQualifying (g : Geometry) (st : PMState) (c : Int) : Nat → Int → Bool
  | 0, _ => false
  | d + 1, f =>
    (decide (f ≠ 0) && decide (f ≠ c) && frameEmptyB g st f) ||
    (List.range g.PAGE_SIZE).any (fun i =>
      let v := st.mem (f.toNat * g.PAGE_SIZE + i)
      decide (v ≠ 0) && hasQualifying g st c d v)

/-- The first frame in DFS order qualifying for priority 1 in the subtree
entered at `f` (whose parent slot is `parent * PAGE_SIZE + offset`), together
with its own parent frame and slot index. -/
def firstQualifying (g : Geometry) (st : PMState) (c : Int) :
    Nat → Int → Nat → Nat → Option (Int × Nat × Nat)
  | 0, _, _, _ => none
  | d + 1, f, parent, offset =>
    if f ≠ 0 ∧ f ≠ c ∧ frameEmptyB g st f then some (f, parent, offset)
    else (List.range g.PAGE_SIZE).findSome? (fun i =>
      let v := st.mem (f.toNat * g.PAGE_SIZE + i)
      if v ≠ 0 then firstQualifying g st c d v f.toNat i else none)

/-- The leaf slots visited by a full traversal of the subtree entered at
frame `f`, in DFS order: each entry carries the leaf frame, its virtual page
number, its parent frame and the slot index inside the parent. -/
def leavesList (g : Geometry) (st : PMState) :
    Nat → Int → Nat → Nat → Nat → List (Int × Nat × Nat × Nat)
  | 0, f, currentVirtual, parent, offset => [(f, currentVirtual, parent, offset)]
  | d + 1, f, currentVirtual, _, _ =>
    (List.range g.PAGE_SIZE).flatMap (fun i =>
      let v := st.mem (f.toNat * g.PAGE_SIZE + i)
      if v ≠ 0 then leavesList g st d v ((currentVirtual <<< g.OFFSET_WIDTH) + i) f.toNat i
      else [])

/-- All non-zero slot values read by a full traversal of the subtree entered
at frame `f` (the values over which `maxFrame` is maximised), in DFS order. -/
def slotValues (g : Geometry) (st : PMState) : Nat → Int → List Int
  | 0, _ => []
  | d + 1, f =>
    (List.range g.PAGE_SIZE).flatMap (fun i =>
      let v := st.mem (f.toNat * g.PAGE_SIZE + i)
      if v ≠ 0 then v :: slotValues g st d v else [])

/-- Folding the source's victim update over a list of visited leaves. -/
def foldLeaves (g : Geometry) (args : SearchArguments)
    (L : List (Int × Nat × Nat × Nat)) : SearchArguments :=
  L.foldl (fun a l => update_max_cyclic_distance g a l.1 l.2.1 l.2.2.1 l.2.2.2) args

/-- The frame the translator extracts from the finder's raw result
(`find_physical_address`, lines 202-217): it first increments `maxFrame`
(line 202), then dispatches on the priority — the empty frame under
priority 1, the incremented maximum under priority 2, the recorded victim
under priority 3, and the zero it just read from the slot otherwise. -/
def chosenFrame (a : SearchArguments) : Int :=
  let args : SearchArguments := { a with maxFrame := a.maxFrame + 1 }
  if args.priority = 1 then args.emptyFrame
  else if args.priority = 2 then args.maxFrame
  else if args.priority = 3 then args.maxCyclicFrame
  else 0

/-- The leaf slots visited below frame `f` through the slots listed in
`idx` (restriction of `leavesList` to a sublist of slot indices). -/
def leavesOf (g : Geometry) (st : PMState) (d : Nat) (f : Int) (currentVirtual : Nat)
    (idx : List Nat) : List (Int × Nat × Nat × Nat) :=
  idx.flatMap (fun i =>
    let v := st.mem (f.toNat * g.PAGE_SIZE + i)
    if v ≠ 0 then leavesList g st d v ((currentVirtual <<< g.OFFSET_WIDTH) + i) f.toNat i
    else [])

/-- The non-zero slot values collected below frame `f` through the slots
listed in `idx` (restriction of `slotValues`). -/
def slotsOf (g : Geometry) (st : PMState) (d : Nat) (f : Int) (idx : List Nat) : List Int :=
  idx.flatMap (fun i =>
    let v := st.mem (f.toNat * g.PAGE_SIZE + i)
    if v ≠ 0 then v :: slotValues g st d v else [])

/-- The first priority-1 candidate found below frame `f` through the slots
listed in `idx` (restriction of the search part of `firstQualifying`). -/
def firstQualOf (g : Geometry) (st : PMState) (c : Int) (d : Nat) (f : Int)
    (idx : List Nat) : Option (Int × Nat × Nat) :=
  idx.findSome? (fun i =>
    let v := st.mem (f.toNat * g.PAGE_SIZE + i)
    if v ≠ 0 then firstQualifying g st c d v f.toNat i else none)

/-- Spec-side description of the translator's output contract (section 4.2):
the frame reached at depth `i` when following the split `o` of `V` from
frame 0 in state `st` — frame 0 at depth 0, and at depth `i + 1` the value
held by slot `o[i]` of the depth-`i` frame.  The contract demands that each
slot `o[i]` of the depth-`i` frame be non-zero for `i < TABLES_DEPTH` and
that the walk end at the returned leaf frame. -/
def walkFrame (g : Geometry) (st : PMState) (V : Nat) : Nat → Int
  | 0 => 0
  | Nat.succ i => st.mem ((walkFrame g st V i).toNat * g.PAGE_SIZE + init_offsets g V i)

/-!
## Concrete geometries and runs used by witnesses and counterexamples

`gSane` is the geometry of the end-to-end scenarios of the spec (section 8).
`gTight` and `gTight3` lie inside the valid ranges of spec section 6
(`OFFSET_WIDTH ≥ 1`, `PHYSICAL_ADDRESS_WIDTH > OFFSET_WIDTH`,
`VIRTUAL_ADDRESS_WIDTH > OFFSET_WIDTH`, `NUM_FRAMES ≥ 2`, with `TABLES_DEPTH`
given by the ceiling formula of section 2) but have
`NUM_FRAMES ≤ TABLES_DEPTH`, which starves the finder: a translation can
reach the eviction branch before any leaf has been visited, whereupon the
recorded victim is still its initial value, frame 0. -/
def gSane : Geometry := ⟨4, 6, 8, 1⟩

/-- `OFFSET_WIDTH = 1`, `PHYSICAL_ADDRESS_WIDTH = 2`, `VIRTUAL_ADDRESS_WIDTH = 3`:
`PAGE_SIZE = 2`, `NUM_FRAMES = 2`, `NUM_PAGES = 4`, `TABLES_DEPTH = 2`. -/
def gTight : Geometry := ⟨1, 2, 3, 2⟩

/-- `OFFSET_WIDTH = 1`, `PHYSICAL_ADDRESS_WIDTH = 2`, `VIRTUAL_ADDRESS_WIDTH = 4`:
`PAGE_SIZE = 2`, `NUM_FRAMES = 2`, `NUM_PAGES = 8`, `TABLES_DEPTH = 3`. -/
def gTight3 : Geometry := ⟨1, 2, 4, 3⟩

/-- The state reached by `initialize()` from the zeroed physical memory. -/
def stInit (g : Geometry) : PMState := VMinitialize g PMState.zero

/-- Under `gSane`, write pages 0, 1 and 2 (values 1, 2, 3): all four frames
become used (root plus three leaves). -/
def stFull : PMState :=
  (VMwrite gSane ((VMwrite gSane ((VMwrite gSane (stInit gSane) 0 1).2) 16 2).2) 32 3).2

/-- Under `gTight`, the state in the middle of `write(0, 42)` right before
the second-level finder call: frame 1 has been installed in slot 0 of the
root and zeroed. -/
def stMid : PMState :=
  zero_frame gTight
    (PMwrite (stInit gTight) (0 * gTight.PAGE_SIZE + init_offsets gTight 0 0) 1) 1 0
    gTight.PAGE_SIZE

/-- Under `gTight3`, the state after `initialize(); write(0, 9); read(8, &y);
write(1, 9)` — a reachable state whose page-table structure is not a tree. -/
def stLoop : PMState :=
  (VMwrite gTight3 ((VMread gTight3 ((VMwrite gTight3 (stInit gTight3) 0 9).2) 8 0).2.2) 1 9).2

/-- The physical memory during the very first translation after
`initialize` (for virtual address `V`), when the walk has completed `i`
levels: the root chain holds frames `1, …, i` — slot `o[k]` of frame `k`
holds `k + 1` for `k < i` — and every other word is zero.  `chainState g V 0`
is the all-zero memory, and `chainState g V TABLES_DEPTH` is the state after
the full walk (the freshly restored leaf frame `TABLES_DEPTH` is zero). -/
def chainMem (g : Geometry) (V : Nat) (i : Nat) (a : Nat) : Int :=
  if a / g.PAGE_SIZE < i ∧ a % g.PAGE_SIZE = init_offsets g V (a / g.PAGE_SIZE) then
    ((a / g.PAGE_SIZE : Nat) : Int) + 1
  else 0

/-- The `chainMem` memory with an empty backing store. -/
def chainState (g : Geometry) (V : Nat) (i : Nat) : PMState :=
  { mem := chainMem g V i, swap := fun _ => none }

/-!
## Record and fold lemmas
-/

@[simp] theorem umcd_currentFrame (g : Geometry) (a : SearchArguments) (f : Int)
    (cv p o : Nat) : (update_max_cyclic_distance g a f cv p o).currentFrame = a.currentFrame := by
  simp only [update_max_cyclic_distance]; split <;> rfl

@[simp] theorem umcd_pageNumber (g : Geometry) (a : SearchArguments) (f : Int)
    (cv p o : Nat) : (update_max_cyclic_distance g a f cv p o).pageNumber = a.pageNumber := by
  simp only [update_max_cyclic_distance]; split <;> rfl

@[simp] theorem umcd_maxFrame (g : Geometry) (a : SearchArguments) (f : Int)
    (cv p o : Nat) : (update_max_cyclic_distance g a f cv p o).maxFrame = a.maxFrame := by
  simp only [update_max_cyclic_distance]; split <;> rfl

@[simp] theorem umcd_priority (g : Geometry) (a : SearchArguments) (f : Int)
    (cv p o : Nat) : (update_max_cyclic_distance g a f cv p o).priority = a.priority := by
  simp only [update_max_cyclic_distance]; split <;> rfl

@[simp] theorem umcd_emptyFrame (g : Geometry) (a : SearchArguments) (f : Int)
    (cv p o : Nat) : (update_max_cyclic_distance g a f cv p o).emptyFrame = a.emptyFrame := by
  simp only [update_max_cyclic_distance]; split <;> rfl

theorem umcd_maxFrame_comm (g : Geometry) (a : SearchArguments) (m f : Int) (cv p o : Nat) :
    update_max_cyclic_distance g { a with maxFrame := m } f cv p o =
      { update_max_cyclic_distance g a f cv p o with maxFrame := m } := by
  simp only [update_max_cyclic_distance]; split <;> rfl

@[simp] theorem foldLeaves_nil (g : Geometry) (a : SearchArguments) :
    foldLeaves g a [] = a := rfl

@[simp] theorem foldLeaves_cons (g : Geometry) (a : SearchArguments)
    (l : Int × Nat × Nat × Nat) (L : List (Int × Nat × Nat × Nat)) :
    foldLeaves g a (l :: L) =
      foldLeaves g (update_max_cyclic_distance g a l.1 l.2.1 l.2.2.1 l.2.2.2) L := rfl

theorem foldLeaves_append (g : Geometry) (a : SearchArguments)
    (L1 L2 : List (Int × Nat × Nat × Nat)) :
    foldLeaves g a (L1 ++ L2) = foldLeaves g (foldLeaves g a L1) L2 :=
  List.foldl_append ..

@[simp] theorem foldLeaves_currentFrame (g : Geometry) (a : SearchArguments)
    (L : List (Int × Nat × Nat × Nat)) :
    (foldLeaves g a L).currentFrame = a.currentFrame := by
  induction L generalizing a with
  | nil => rfl
  | cons l L ih => rw [foldLeaves_cons, ih, umcd_currentFrame]

@[simp] theorem foldLeaves_pageNumber (g : Geometry) (a : SearchArguments)
    (L : List (Int × Nat × Nat × Nat)) :
    (foldLeaves g a L).pageNumber = a.pageNumber := by
  induction L generalizing a with
  | nil => rfl
  | cons l L ih => rw [foldLeaves_cons, ih, umcd_pageNumber]

@[simp] theorem foldLeaves_maxFrame (g : Geometry) (a : SearchArguments)
    (L : List (Int × Nat × Nat × Nat)) :
    (foldLeaves g a L).maxFrame = a.maxFrame := by
  induction L generalizing a with
  | nil => rfl
  | cons l L ih => rw [foldLeaves_cons, ih, umcd_maxFrame]

@[simp] theorem foldLeaves_priority (g : Geometry) (a : SearchArguments)
    (L : List (Int × Nat × Nat × Nat)) :
    (foldLeaves g a L).priority = a.priority := by
  induction L generalizing a with
  | nil => rfl
  | cons l L ih => rw [foldLeaves_cons, ih, umcd_priority]

@[simp] theorem foldLeaves_emptyFrame (g : Geometry) (a : SearchArguments)
    (L : List (Int × Nat × Nat × Nat)) :
    (foldLeaves g a L).emptyFrame = a.emptyFrame := by
  induction L generalizing a with
  | nil => rfl
  | cons l L ih => rw [foldLeaves_cons, ih, umcd_emptyFrame]

theorem foldLeaves_maxFrame_comm (g : Geometry) (a : SearchArguments) (m : Int)
    (L : List (Int × Nat × Nat × Nat)) :
    foldLeaves g { a with maxFrame := m } L = { foldLeaves g a L with maxFrame := m } := by
  induction L generalizing a with
  | nil => rfl
  | cons l L ih => rw [foldLeaves_cons, umcd_maxFrame_comm, ih, foldLeaves_cons]

theorem maxFrame_if (a : SearchArguments) (v : Int) :
    (if v ≥ a.maxFrame then { a with maxFrame := v } else a) =
      { a with maxFrame := max a.maxFrame v } := by
  split
  · rw [max_eq_right (by assumption)]
  · rw [max_eq_left (le_of_not_le (by assumption))]

@[simp] theorem setMaxFrame_self (x : SearchArguments) : { x with maxFrame := x.maxFrame } = x :=
  rfl

/-!
## Unfolding and characterisation lemmas for the finder
-/

theorem empty_check_spec (g : Geometry) (st : PMState) (f : Int) :
    ∀ (n i : Nat), empty_check g st f i n =
      (List.range' i n).all (fun k => st.mem (f.toNat * g.PAGE_SIZE + k) == 0) := by
  intro n
  induction n with
  | zero => intro i; rfl
  | succ n ih =>
    intro i
    rw [List.range'_succ, List.all_cons, empty_check, ih (i + 1)]
    by_cases h : st.mem (f.toNat * g.PAGE_SIZE + i) = 0 <;> simp [PMread, h]

theorem empty_check_eq_frameEmptyB (g : Geometry) (st : PMState) (f : Int) :
    empty_check g st f 0 g.PAGE_SIZE = frameEmptyB g st f := by
  rw [empty_check_spec, frameEmptyB, List.range_eq_range']

theorem findSome?_isSome (fn : Nat → Option (Int × Nat × Nat)) :
    ∀ l : List Nat, (l.findSome? fn).isSome = l.any (fun x => (fn x).isSome) := by
  intro l
  induction l with
  | nil => rfl
  | cons x l ih =>
    rw [List.findSome?_cons, List.any_cons, ← ih]
    cases fn x <;> simp

theorem firstQualifying_isSome (g : Geometry) (st : PMState) (c : Int) :
    ∀ (d : Nat) (f : Int) (par off : Nat),
      (firstQualifying g st c d f par off).isSome = hasQualifying g st c d f := by
  intro d
  induction d with
  | zero => intro f par off; rfl
  | succ d ih =>
    intro f par off
    rw [firstQualifying, hasQualifying]
    by_cases h : f ≠ 0 ∧ f ≠ c ∧ frameEmptyB g st f
    · simp [h, h.1, h.2.1, h.2.2]
    · rw [if_neg h, findSome?_isSome]
      have hb : (decide (f ≠ 0) && decide (f ≠ c) && frameEmptyB g st f) = false := by
        rcases Decidable.not_and_iff_or_not.mp h with h1 | h23
        · simp [h1]
        · rcases Decidable.not_and_iff_or_not.mp h23 with h2 | h3
          · simp [h2]
          · simp [h3]
      rw [hb, Bool.false_or]
      congr 1
      funext i
      by_cases hv : st.mem (f.toNat * g.PAGE_SIZE + i) = 0 <;> simp [hv, ih]

/-- Unfolding `find_next_frame` at the leaves. -/
theorem fnf_zero (g : Geometry) (st : PMState) (a : SearchArguments) (f : Int)
    (cv par off : Nat) :
    find_next_frame g 0 st a f cv par off = (update_max_cyclic_distance g a f cv par off, st) :=
  rfl

/-- Unfolding `find_next_frame` one level above the leaves. -/
theorem fnf_succ (g : Geometry) (d : Nat) (st : PMState) (a : SearchArguments) (f : Int)
    (cv par off : Nat) :
    find_next_frame g (d + 1) st a f cv par off =
      (if f ≠ 0 ∧ f ≠ a.currentFrame ∧ empty_check g st f 0 g.PAGE_SIZE then
        ({ a with emptyFrame := f, priority := 1 }, PMwrite st (par * g.PAGE_SIZE + off) 0)
      else
        (fun r => if f = 0 ∧ r.1.priority ≠ 1 then empty_frame_not_found g r.2 r.1 else r)
          (fnf_loop g (fun st2 a2 nf cv2 j => find_next_frame g d st2 a2 nf cv2 f.toNat j)
            st a f cv 0 g.PAGE_SIZE)) :=
  rfl

@[simp] theorem fnf_loop_zero (g : Geometry) (visit) (st : PMState) (a : SearchArguments)
    (f : Int) (cv i : Nat) : fnf_loop g visit st a f cv i 0 = (a, st) := rfl

theorem fnf_loop_succ (g : Geometry) (visit) (st : PMState) (a : SearchArguments)
    (f : Int) (cv i n : Nat) :
    fnf_loop g visit st a f cv i (n + 1) =
      (if st.mem (f.toNat * g.PAGE_SIZE + i) ≠ 0 then
        (fun r => if r.1.priority = 1 then r else fnf_loop g visit r.2 r.1 f cv (i + 1) n)
          (visit st
            (if st.mem (f.toNat * g.PAGE_SIZE + i) ≥ a.maxFrame then
              { a with maxFrame := st.mem (f.toNat * g.PAGE_SIZE + i) } else a)
            (st.mem (f.toNat * g.PAGE_SIZE + i)) ((cv <<< g.OFFSET_WIDTH) + i) i)
      else fnf_loop g visit st a f cv (i + 1) n) :=
  rfl

/-- The slot loop under the hypothesis that no child subtree contains a
priority-1 candidate: the loop completes, leaves the state untouched, and
returns the `maxFrame`-fold over the slot values and the victim-fold over
the visited leaves.  The child behaviour (`ihA`) is supplied by the outer
induction on the distance to the leaves. -/
theorem fnf_loop_A (g : Geometry) (c : Int) (d : Nat)
    (ihA : ∀ (st : PMState) (a : SearchArguments) (f : Int) (cv par off : Nat),
      hasQualifying g st c d f = false → a.currentFrame = c → a.priority ≠ 1 →
      (f ≠ 0 ∨ d = 0) →
      find_next_frame g d st a f cv par off =
        ({ foldLeaves g a (leavesList g st d f cv par off) with
            maxFrame := (slotValues g st d f).foldl max a.maxFrame }, st)) :
    ∀ (n : Nat) (st : PMState) (a : SearchArguments) (f : Int) (cv i : Nat),
      (∀ j ∈ List.range' i n, st.mem (f.toNat * g.PAGE_SIZE + j) ≠ 0 →
        hasQualifying g st c d (st.mem (f.toNat * g.PAGE_SIZE + j)) = false) →
      a.currentFrame = c → a.priority ≠ 1 →
      fnf_loop g (fun st2 a2 nf cv2 j => find_next_frame g d st2 a2 nf cv2 f.toNat j)
          st a f cv i n =
        ({ foldLeaves g a (leavesOf g st d f cv (List.range' i n)) with
            maxFrame := (slotsOf g st d f (List.range' i n)).foldl max a.maxFrame }, st) := by
  intro n
  induction n with
  | zero =>
    intro st a f cv i h hc hp
    simp [leavesOf, slotsOf]
  | succ n ihn =>
    intro st a f cv i h hc hp
    have hrange : List.range' i (n + 1) = i :: List.range' (i + 1) n := List.range'_succ ..
    by_cases hv : st.mem (f.toNat * g.PAGE_SIZE + i) = 0
    · rw [fnf_loop_succ, if_neg (by simpa using hv),
        ihn st a f cv (i + 1)
          (fun j hj hne => h j (by rw [hrange]; exact List.mem_cons_of_mem _ hj) hne) hc hp,
        hrange]
      simp only [leavesOf, slotsOf, List.flatMap_cons, hv]
      simp
    · have hq_i : hasQualifying g st c d (st.mem (f.toNat * g.PAGE_SIZE + i)) = false :=
        h i (by rw [hrange]; exact List.mem_cons_self ..) hv
      rw [fnf_loop_succ, if_pos hv, maxFrame_if]
      rw [ihA st { a with maxFrame := max a.maxFrame (st.mem (f.toNat * g.PAGE_SIZE + i)) }
        (st.mem (f.toNat * g.PAGE_SIZE + i)) ((cv <<< g.OFFSET_WIDTH) + i) f.toNat i
        hq_i hc hp (Or.inl hv)]
      dsimp only
      rw [if_neg (by simpa using hp)]
      rw [ihn st _ f cv (i + 1)
        (fun j hj hne => h j (by rw [hrange]; exact List.mem_cons_of_mem _ hj) hne)
        (by simp [hc]) (by simpa using hp)]
      rw [hrange]
      simp only [leavesOf, slotsOf, List.flatMap_cons, if_pos hv]
      simp only [foldLeaves_maxFrame_comm, foldLeaves_append, List.foldl_append,
        List.foldl_cons]

/-- The slot loop when the remaining slots do contain a first priority-1
candidate: the loop commits to it, zeroes exactly its parent slot, and
breaks.  `ihA` and `ihB` supply the child behaviour one level deeper. -/
theorem fnf_loop_B (g : Geometry) (c : Int) (d : Nat)
    (ihA : ∀ (st : PMState) (a : SearchArguments) (f : Int) (cv par off : Nat),
      hasQualifying g st c d f = false → a.currentFrame = c → a.priority ≠ 1 →
      (f ≠ 0 ∨ d = 0) →
      find_next_frame g d st a f cv par off =
        ({ foldLeaves g a (leavesList g st d f cv par off) with
            maxFrame := (slotValues g st d f).foldl max a.maxFrame }, st))
    (ihB : ∀ (st : PMState) (a : SearchArguments) (f : Int) (cv par off : Nat)
      (e : Int) (p o : Nat),
      firstQualifying g st c d f par off = some (e, p, o) →
      a.currentFrame = c → a.priority ≠ 1 →
      ∃ a2, find_next_frame g d st a f cv par off =
          (a2, PMwrite st (p * g.PAGE_SIZE + o) 0) ∧
        a2.priority = 1 ∧ a2.emptyFrame = e ∧ a2.currentFrame = c) :
    ∀ (n : Nat) (st : PMState) (a : SearchArguments) (f : Int) (cv i : Nat)
      (e : Int) (p o : Nat),
      firstQualOf g st c d f (List.range' i n) = some (e, p, o) →
      a.currentFrame = c → a.priority ≠ 1 →
      ∃ a2, fnf_loop g (fun st2 a2 nf cv2 j => find_next_frame g d st2 a2 nf cv2 f.toNat j)
          st a f cv i n = (a2, PMwrite st (p * g.PAGE_SIZE + o) 0) ∧
        a2.priority = 1 ∧ a2.emptyFrame = e ∧ a2.currentFrame = c := by
  intro n
  induction n with
  | zero =>
    intro st a f cv i e p o hq hc hp
    simp [firstQualOf] at hq
  | succ n ihn =>
    intro st a f cv i e p o hq hc hp
    have hrange : List.range' i (n + 1) = i :: List.range' (i + 1) n := List.range'_succ ..
    rw [hrange] at hq
    by_cases hv : st.mem (f.toNat * g.PAGE_SIZE + i) = 0
    · rw [firstQualOf, List.findSome?_cons] at hq
      simp only [hv] at hq
      rw [if_neg (by simp)] at hq
      rw [fnf_loop_succ, if_neg (by simpa using hv)]
      exact ihn st a f cv (i + 1) e p o hq hc hp
    · rw [firstQualOf, List.findSome?_cons] at hq
      rw [if_pos hv] at hq
      rcases hfq : firstQualifying g st c d (st.mem (f.toNat * g.PAGE_SIZE + i)) f.toNat i with
        _ | q
      · rw [hfq] at hq
        have hnq : hasQualifying g st c d (st.mem (f.toNat * g.PAGE_SIZE + i)) = false := by
          rw [← firstQualifying_isSome g st c d _ f.toNat i, hfq]; rfl
        rw [fnf_loop_succ, if_pos hv, maxFrame_if]
        rw [ihA st { a with maxFrame := max a.maxFrame (st.mem (f.toNat * g.PAGE_SIZE + i)) }
          (st.mem (f.toNat * g.PAGE_SIZE + i)) ((cv <<< g.OFFSET_WIDTH) + i) f.toNat i
          hnq hc hp (Or.inl hv)]
        dsimp only
        rw [if_neg (by simpa using hp)]
        exact ihn st _ f cv (i + 1) e p o hq (by simp [hc]) (by simpa using hp)
      · rw [hfq] at hq
        obtain rfl : q = (e, p, o) := by simpa using hq
        rw [fnf_loop_succ, if_pos hv, maxFrame_if]
        obtain ⟨a2, heq, h1, h2, h3⟩ := ihB st
          { a with maxFrame := max a.maxFrame (st.mem (f.toNat * g.PAGE_SIZE + i)) }
          (st.mem (f.toNat * g.PAGE_SIZE + i)) ((cv <<< g.OFFSET_WIDTH) + i) f.toNat i
          e p o hfq hc hp
        dsimp only
        rw [heq]
        rw [if_pos h1]
        exact ⟨a2, rfl, h1, h2, h3⟩

/-- The full characterisation of `find_next_frame` on subtrees, by induction
on the distance `d` to the leaves: when the subtree holds no priority-1
candidate the traversal is pure and computes the `maxFrame`-fold and the
victim-fold; when it holds one, the DFS commits to the first one in DFS
order, zeroing exactly its parent slot. -/
theorem fnf_characterization (g : Geometry) (c : Int) :
    ∀ d : Nat,
      (∀ (st : PMState) (a : SearchArguments) (f : Int) (cv par off : Nat),
        hasQualifying g st c d f = false → a.currentFrame = c → a.priority ≠ 1 →
        (f ≠ 0 ∨ d = 0) →
        find_next_frame g d st a f cv par off =
          ({ foldLeaves g a (leavesList g st d f cv par off) with
              maxFrame := (slotValues g st d f).foldl max a.maxFrame }, st)) ∧
      (∀ (st : PMState) (a : SearchArguments) (f : Int) (cv par off : Nat)
        (e : Int) (p o : Nat),
        firstQualifying g st c d f par off = some (e, p, o) →
        a.currentFrame = c → a.priority ≠ 1 →
        ∃ a2, find_next_frame g d st a f cv par off =
            (a2, PMwrite st (p * g.PAGE_SIZE + o) 0) ∧
          a2.priority = 1 ∧ a2.emptyFrame = e ∧ a2.currentFrame = c) := by
  intro d
  induction d with
  | zero =>
    constructor
    · intro st a f cv par off hq hc hp hf
      rw [fnf_zero]
      have h1 : leavesList g st 0 f cv par off = [(f, cv, par, off)] := rfl
      have h2 : slotValues g st 0 f = [] := rfl
      rw [h1, h2, foldLeaves_cons, foldLeaves_nil, List.foldl_nil]
      dsimp only
      conv_rhs => rw [← umcd_maxFrame g a f cv par off, setMaxFrame_self]
    · intro st a f cv par off e p o hq hc hp
      exact absurd hq (by simp [firstQualifying])
  | succ d ih =>
    obtain ⟨ihA, ihB⟩ := ih
    constructor
    · intro st a f cv par off hq hc hp hf
      replace hf : f ≠ 0 := by
        rcases hf with hf | hf
        · exact hf
        · exact absurd hf (Nat.succ_ne_zero d)
      rw [hasQualifying] at hq
      have hq1 : ¬(f ≠ 0 ∧ f ≠ c ∧ frameEmptyB g st f = true) := by
        intro ⟨u1, u2, u3⟩
        simp [u1, u2, u3] at hq
      have hq2 : ∀ j ∈ List.range g.PAGE_SIZE,
          st.mem (f.toNat * g.PAGE_SIZE + j) ≠ 0 →
          hasQualifying g st c d (st.mem (f.toNat * g.PAGE_SIZE + j)) = false := by
        intro j hj hne
        rcases Bool.or_eq_false_iff.mp hq with ⟨_, hany⟩
        have h3 := List.any_eq_false.mp hany j hj
        have h4 : st.mem (f.toNat * g.PAGE_SIZE + j) ≠ 0 →
            hasQualifying g st c d (st.mem (f.toNat * g.PAGE_SIZE + j)) = false := by
          simpa using h3
        exact h4 hne
      rw [fnf_succ, empty_check_eq_frameEmptyB]
      rw [if_neg (by rw [hc]; exact hq1)]
      rw [fnf_loop_A g c d ihA g.PAGE_SIZE st a f cv 0
        (by intro j hj hne; exact hq2 j (by simpa [List.range_eq_range'] using hj) hne) hc hp]
      dsimp only
      rw [if_neg (by simp [hf])]
      rw [← List.range_eq_range']
      rfl
    · intro st a f cv par off e p o hq hc hp
      rw [firstQualifying] at hq
      by_cases hself : f ≠ 0 ∧ f ≠ c ∧ frameEmptyB g st f
      · rw [if_pos hself] at hq
        obtain ⟨rfl, rfl, rfl⟩ : f = e ∧ par = p ∧ off = o := by
          have := hq
          simp at this
          exact ⟨this.1, this.2.1, this.2.2⟩
        refine ⟨{ a with emptyFrame := f, priority := 1 }, ?_, rfl, rfl, hc⟩
        rw [fnf_succ, empty_check_eq_frameEmptyB, if_pos (by rw [hc]; exact hself)]
      · rw [if_neg hself] at hq
        have hq2 : firstQualOf g st c d f (List.range' 0 g.PAGE_SIZE) = some (e, p, o) := by
          rw [← List.range_eq_range']; exact hq
        obtain ⟨a2, heq, h1, h2, h3⟩ :=
          fnf_loop_B g c d ihA ihB g.PAGE_SIZE st a f cv 0 e p o hq2 hc hp
        refine ⟨a2, ?_, h1, h2, h3⟩
        rw [fnf_succ, empty_check_eq_frameEmptyB, if_neg (by rw [hc]; exact hself)]
        dsimp only
        rw [heq]
        have : ¬(f = 0 ∧ a2.priority ≠ 1) := by
          intro ⟨_, hcon⟩; exact hcon h1
        rw [if_neg this]

/-- The translator's invocation of the finder (root frame 0) when no
priority-1 candidate exists: a pure full traversal followed by
`empty_frame_not_found` on the folded results. -/
theorem fnf_top_A (g : Geometry) (st : PMState) (c : Int) (pn : Nat) (d : Nat)
    (hq : hasQualifying g st c (d + 1) 0 = false) :
    find_next_frame g (d + 1) st ⟨c, 0, pn, 0, 0, 0, 0, 0, 0⟩ 0 0 0 0 =
      empty_frame_not_found g st
        { foldLeaves g ⟨c, 0, pn, 0, 0, 0, 0, 0, 0⟩ (leavesList g st (d + 1) 0 0 0 0) with
          maxFrame := (slotValues g st (d + 1) 0).foldl max 0 } := by
  obtain ⟨ihA, _⟩ := fnf_characterization g c d
  rw [hasQualifying] at hq
  have hq2 : ∀ j ∈ List.range g.PAGE_SIZE,
      st.mem ((0 : Int).toNat * g.PAGE_SIZE + j) ≠ 0 →
      hasQualifying g st c d (st.mem ((0 : Int).toNat * g.PAGE_SIZE + j)) = false := by
    intro j hj hne
    rcases Bool.or_eq_false_iff.mp hq with ⟨_, hany⟩
    have h3 := List.any_eq_false.mp hany j hj
    have h4 : st.mem ((0 : Int).toNat * g.PAGE_SIZE + j) ≠ 0 →
        hasQualifying g st c d (st.mem ((0 : Int).toNat * g.PAGE_SIZE + j)) = false := by
      simpa using h3
    exact h4 hne
  rw [fnf_succ]
  rw [if_neg (by intro h; exact h.1 rfl)]
  rw [fnf_loop_A g c d ihA g.PAGE_SIZE st ⟨c, 0, pn, 0, 0, 0, 0, 0, 0⟩ 0 0 0
    (by intro j hj hne; exact hq2 j (by simpa [List.range_eq_range'] using hj) hne) rfl
    (by simp)]
  dsimp only
  rw [if_pos (by refine ⟨rfl, ?_⟩; simp)]
  rw [← List.range_eq_range']
  rfl

/-- The translator's invocation of the finder when a priority-1 candidate
exists: the DFS commits to the first one. -/
theorem fnf_top_B (g : Geometry) (st : PMState) (c : Int) (pn : Nat) (d : Nat)
    (e : Int) (p o : Nat)
    (hq : firstQualifying g st c (d + 1) 0 0 0 = some (e, p, o)) :
    ∃ a2, find_next_frame g (d + 1) st ⟨c, 0, pn, 0, 0, 0, 0, 0, 0⟩ 0 0 0 0 =
        (a2, PMwrite st (p * g.PAGE_SIZE + o) 0) ∧
      a2.priority = 1 ∧ a2.emptyFrame = e ∧ a2.currentFrame = c :=
  (fnf_characterization g c (d + 1)).2 st ⟨c, 0, pn, 0, 0, 0, 0, 0, 0⟩ 0 0 0 0 e p o hq rfl
    (by simp)

/-!
## The first translation after initialize: chain states
-/

attribute [ext] PMState

theorem init_offsets_eq_mod (g : Geometry) (V k : Nat) :
    init_offsets g V k = (V >>> ((g.TABLES_DEPTH - k) * g.OFFSET_WIDTH)) % g.PAGE_SIZE := by
  rw [init_offsets, Geometry.PAGE_SIZE, Nat.and_pow_two_sub_one_eq_mod]

theorem init_offsets_lt (g : Geometry) (V k : Nat) : init_offsets g V k < g.PAGE_SIZE := by
  rw [init_offsets_eq_mod]
  exact Nat.mod_lt _ (Nat.pos_pow_of_pos _ (by norm_num))

theorem vminit_loop_mem (g : Geometry) : ∀ (n : Nat) (st : PMState) (i a : Nat),
    (vminit_loop g st i n).mem a = if i ≤ a ∧ a < i + n then 0 else st.mem a := by
  intro n
  induction n with
  | zero =>
    intro st i a
    rw [if_neg (by omega)]
    rfl
  | succ n ih =>
    intro st i a
    rw [vminit_loop, ih]
    by_cases h1 : i + 1 ≤ a ∧ a < i + 1 + n
    · rw [if_pos h1, if_pos (by omega)]
    · rw [if_neg h1]
      simp only [PMwrite]
      by_cases h2 : a = i
      · rw [if_pos h2, if_pos (by omega)]
      · rw [if_neg h2, if_neg (by omega)]

theorem vminit_loop_swap (g : Geometry) : ∀ (n : Nat) (st : PMState) (i : Nat),
    (vminit_loop g st i n).swap = st.swap := by
  intro n
  induction n with
  | zero => intro st i; rfl
  | succ n ih => intro st i; rw [vminit_loop, ih]; rfl

/-- `initialize` from the zeroed physical memory produces the empty chain. -/
theorem VMinitialize_zero (g : Geometry) (V : Nat) :
    VMinitialize g PMState.zero = chainState g V 0 := by
  ext a
  · rw [ VMinitialize, vminit_loop_mem]
    simp [PMState.zero, chainState, chainMem]
  · rw [ VMinitialize, vminit_loop_swap]
    rfl

theorem chainMem_at (g : Geometry) (V i k s : Nat) (hs : s < g.PAGE_SIZE) :
    chainMem g V i (k * g.PAGE_SIZE + s) =
      if k < i ∧ s = init_offsets g V k then (k : Int) + 1 else 0 := by
  have hPS : 0 < g.PAGE_SIZE := Nat.pos_pow_of_pos _ (by norm_num)
  unfold chainMem
  rw [Nat.mul_comm k g.PAGE_SIZE, Nat.mul_add_div hPS, Nat.div_eq_of_lt hs, Nat.add_zero,
    Nat.mul_add_mod, Nat.mod_eq_of_lt hs]

theorem flatMap_range_eq_nil {α : Type} (n : Nat) (f : Nat → List α)
    (hf : ∀ s, s < n → f s = []) : (List.range n).flatMap f = [] := by
  apply List.flatMap_eq_nil_iff.mpr
  intro x hx
  exact hf x (List.mem_range.mp hx)

theorem flatMap_range_single {α : Type} (n t : Nat) (f : Nat → List α) (ht : t < n)
    (hf : ∀ s, s < n → s ≠ t → f s = []) : (List.range n).flatMap f = f t := by
  induction n with
  | zero => omega
  | succ n ih =>
    rw [List.range_succ, List.flatMap_append]
    by_cases hcase : t = n
    · subst hcase
      rw [flatMap_range_eq_nil t f (fun s h1 => hf s (by omega) (by omega))]
      simp
    · rw [ih (by omega) (fun s h1 h2 => hf s (by omega) h2)]
      simp [hf n (by omega) (fun h => hcase h.symm)]

/-- Reading a word of frame `k` in a chain state. -/
theorem chainState_mem (g : Geometry) (V i k s : Nat) (hs : s < g.PAGE_SIZE) :
    (chainState g V i).mem (k * g.PAGE_SIZE + s) =
      if k < i ∧ s = init_offsets g V k then (k : Int) + 1 else 0 :=
  chainMem_at g V i k s hs

/-- In a chain state, the subtree entered at chain frame `k` (at distance
`TABLES_DEPTH - k` from the leaves) holds no priority-1 candidate for the
protected frame `i`: the chain frames below `i` are non-empty, and the empty
frame `i` is the protected one. -/
theorem chain_hasQualifying (g : Geometry) (V i : Nat) (hi : i < g.TABLES_DEPTH) :
    ∀ (j k : Nat), i = k + j →
      hasQualifying g (chainState g V i) (i : Int) (g.TABLES_DEPTH - k) ((k : Nat) : Int)
        = false := by
  intro j
  induction j with
  | zero =>
    intro k hk
    obtain ⟨m, hm⟩ : ∃ m, g.TABLES_DEPTH - k = m + 1 := ⟨g.TABLES_DEPTH - k - 1, by omega⟩
    rw [hm, hasQualifying]
    apply Bool.or_eq_false_iff.mpr
    refine ⟨by simp [show k = i by omega], ?_⟩
    apply List.any_eq_false.mpr
    intro s hs
    have hs2 : s < g.PAGE_SIZE := List.mem_range.mp hs
    have hv : (chainState g V i).mem (k * g.PAGE_SIZE + s) = 0 := by
      rw [chainState_mem g V i k s hs2, if_neg (fun h => absurd h.1 (by omega))]
    simp [hv]
  | succ j ihj =>
    intro k hk
    have hki : k < i := by omega
    obtain ⟨m, hm1, hm2⟩ :
        ∃ m, g.TABLES_DEPTH - k = m + 1 ∧ m = g.TABLES_DEPTH - (k + 1) :=
      ⟨g.TABLES_DEPTH - k - 1, by omega, by omega⟩
    rw [hm1, hasQualifying]
    apply Bool.or_eq_false_iff.mpr
    constructor
    · have hv : (chainState g V i).mem (k * g.PAGE_SIZE + init_offsets g V k) =
          (k : Int) + 1 := by
        rw [chainState_mem g V i k _ (init_offsets_lt ..), if_pos ⟨hki, rfl⟩]
      have hemp : frameEmptyB g (chainState g V i) ((k : Nat) : Int) = false := by
        apply List.all_eq_false.mpr
        refine ⟨init_offsets g V k, List.mem_range.mpr (init_offsets_lt ..), ?_⟩
        simp [hv]
        omega
      rw [hemp]
      simp
    · apply List.any_eq_false.mpr
      intro s hs
      have hs2 : s < g.PAGE_SIZE := List.mem_range.mp hs
      by_cases hso : s = init_offsets g V k
      · have hv : (chainState g V i).mem (k * g.PAGE_SIZE + s) = (k : Int) + 1 := by
          rw [chainState_mem g V i k s hs2, if_pos ⟨hki, hso⟩]
        have hcast : ((k : Int) + 1) = (((k + 1 : Nat)) : Int) := by push_cast; ring
        have hrec2 : hasQualifying g (chainState g V i) (i : Int)
            (g.TABLES_DEPTH - (k + 1)) ((k : Int) + 1) = false := by
          rw [hcast]; exact ihj (k + 1) (by omega)
        rw [hm2]
        simp [hv, hrec2]
      · have hv : (chainState g V i).mem (k * g.PAGE_SIZE + s) = 0 := by
          rw [chainState_mem g V i k s hs2, if_neg (fun h => hso h.2)]
        simp [hv]

/-- A chain state shorter than the full depth exposes no leaves. -/
theorem chain_leavesList (g : Geometry) (V i : Nat) (hi : i < g.TABLES_DEPTH) :
    ∀ (j k cv par off : Nat), i = k + j →
      leavesList g (chainState g V i) (g.TABLES_DEPTH - k) ((k : Nat) : Int) cv par off
        = [] := by
  intro j
  induction j with
  | zero =>
    intro k cv par off hk
    obtain ⟨m, hm⟩ : ∃ m, g.TABLES_DEPTH - k = m + 1 := ⟨g.TABLES_DEPTH - k - 1, by omega⟩
    rw [hm, leavesList]
    apply flatMap_range_eq_nil
    intro s hs
    have hv : (chainState g V i).mem (k * g.PAGE_SIZE + s) = 0 := by
      rw [chainState_mem g V i k s hs, if_neg (fun h => absurd h.1 (by omega))]
    simp [hv]
  | succ j ihj =>
    intro k cv par off hk
    have hki : k < i := by omega
    obtain ⟨m, hm1, hm2⟩ :
        ∃ m, g.TABLES_DEPTH - k = m + 1 ∧ m = g.TABLES_DEPTH - (k + 1) :=
      ⟨g.TABLES_DEPTH - k - 1, by omega, by omega⟩
    rw [hm1, leavesList]
    apply flatMap_range_eq_nil
    intro s hs
    by_cases hso : s = init_offsets g V k
    · have hv : (chainState g V i).mem (k * g.PAGE_SIZE + s) = (k : Int) + 1 := by
        rw [chainState_mem g V i k s hs, if_pos ⟨hki, hso⟩]
      have hcast : ((k : Int) + 1) = (((k + 1 : Nat)) : Int) := by push_cast; ring
      have hrec2 : leavesList g (chainState g V i) (g.TABLES_DEPTH - (k + 1)) ((k : Int) + 1)
          ((cv <<< g.OFFSET_WIDTH) + s) k s = [] := by
        rw [hcast]; exact ihj (k + 1) ((cv <<< g.OFFSET_WIDTH) + s) k s (by omega)
      rw [hm2]
      simp [hv, hrec2]
    · have hv : (chainState g V i).mem (k * g.PAGE_SIZE + s) = 0 := by
        rw [chainState_mem g V i k s hs, if_neg (fun h => hso h.2)]
      simp [hv]

/-- The slot values of a full traversal of a chain state: the chain frames
`k + 1, …, i` in order. -/
theorem chain_slotValues (g : Geometry) (V i : Nat) (hi : i < g.TABLES_DEPTH) :
    ∀ (j k : Nat), i = k + j →
      slotValues g (chainState g V i) (g.TABLES_DEPTH - k) ((k : Nat) : Int) =
        (List.range' (k + 1) j).map (fun n => ((n : Nat) : Int)) := by
  intro j
  induction j with
  | zero =>
    intro k hk
    obtain ⟨m, hm⟩ : ∃ m, g.TABLES_DEPTH - k = m + 1 := ⟨g.TABLES_DEPTH - k - 1, by omega⟩
    rw [hm, slotValues, flatMap_range_eq_nil]
    · rfl
    intro s hs
    have hv : (chainState g V i).mem (k * g.PAGE_SIZE + s) = 0 := by
      rw [chainState_mem g V i k s hs, if_neg (fun h => absurd h.1 (by omega))]
    simp [hv]
  | succ j ihj =>
    intro k hk
    have hki : k < i := by omega
    obtain ⟨m, hm1, hm2⟩ :
        ∃ m, g.TABLES_DEPTH - k = m + 1 ∧ m = g.TABLES_DEPTH - (k + 1) :=
      ⟨g.TABLES_DEPTH - k - 1, by omega, by omega⟩
    have hv : (chainState g V i).mem (k * g.PAGE_SIZE + init_offsets g V k) =
        (k : Int) + 1 := by
      rw [chainState_mem g V i k _ (init_offsets_lt ..), if_pos ⟨hki, rfl⟩]
    have hcast : ((k : Int) + 1) = (((k + 1 : Nat)) : Int) := by push_cast; ring
    have hrec := ihj (k + 1) (by omega)
    rw [hm1, slotValues,
      flatMap_range_single g.PAGE_SIZE (init_offsets g V k) _ (init_offsets_lt ..)]
    · rw [hm2]
      simp only [Int.toNat_natCast, hv, hcast]
      rw [if_pos (by exact_mod_cast Nat.succ_ne_zero k), hrec,
        List.range'_succ, List.map_cons]
    · intro s hs hne
      have hv2 : (chainState g V i).mem (k * g.PAGE_SIZE + s) = 0 := by
        rw [chainState_mem g V i k s hs, if_neg (fun h => hne h.2)]
      simp [hv2]

theorem fpa_loop_zero (g : Geometry) (st : PMState) (offsets : Nat → Nat)
    (pageNumber : Nat) (nextFrame currentFrame : Int) (i : Nat) :
    fpa_loop g st offsets pageNumber nextFrame currentFrame i 0 = (nextFrame, st) := rfl

theorem zero_frame_mem (g : Geometry) : ∀ (n : Nat) (st : PMState) (f : Int) (j a : Nat),
    (zero_frame g st f j n).mem a =
      if f.toNat * g.PAGE_SIZE + j ≤ a ∧ a < f.toNat * g.PAGE_SIZE + j + n then 0
      else st.mem a := by
  intro n
  induction n with
  | zero =>
    intro st f j a
    rw [if_neg (by omega)]
    rfl
  | succ n ih =>
    intro st f j a
    rw [zero_frame, ih]
    by_cases h1 : f.toNat * g.PAGE_SIZE + (j + 1) ≤ a ∧ a < f.toNat * g.PAGE_SIZE + (j + 1) + n
    · rw [if_pos h1, if_pos (by omega)]
    · rw [if_neg h1]
      simp only [PMwrite]
      by_cases h2 : a = f.toNat * g.PAGE_SIZE + j
      · rw [if_pos h2, if_pos (by omega)]
      · rw [if_neg h2, if_neg (by omega)]

theorem zero_frame_swap (g : Geometry) : ∀ (n : Nat) (st : PMState) (f : Int) (j : Nat),
    (zero_frame g st f j n).swap = st.swap := by
  intro n
  induction n with
  | zero => intro st f j; rfl
  | succ n ih => intro st f j; rw [zero_frame, ih]; rfl

/-- Installing the next chain frame extends the chain by one level. -/
theorem chain_install (g : Geometry) (V i : Nat) :
    PMwrite (chainState g V i) (i * g.PAGE_SIZE + init_offsets g V i) ((i : Int) + 1) =
      chainState g V (i + 1) := by
  have hPS : 0 < g.PAGE_SIZE := Nat.pos_pow_of_pos _ (by norm_num)
  ext a
  · show (if a = i * g.PAGE_SIZE + init_offsets g V i then ((i : Int) + 1)
      else chainMem g V i a) = chainMem g V (i + 1) a
    have hdm := Nat.div_add_mod a g.PAGE_SIZE
    have hmlt : a % g.PAGE_SIZE < g.PAGE_SIZE := Nat.mod_lt _ hPS
    by_cases h2 : a = i * g.PAGE_SIZE + init_offsets g V i
    · rw [if_pos h2, h2, chainMem_at g V (i + 1) i _ (init_offsets_lt ..),
        if_pos ⟨by omega, rfl⟩]
    · rw [if_neg h2]
      show chainMem g V i a = chainMem g V (i + 1) a
      unfold chainMem
      by_cases h3 : a / g.PAGE_SIZE < i ∧
          a % g.PAGE_SIZE = init_offsets g V (a / g.PAGE_SIZE)
      · rw [if_pos h3, if_pos ⟨by omega, h3.2⟩]
      · rw [if_neg h3]
        by_cases h4 : a / g.PAGE_SIZE < i + 1 ∧
            a % g.PAGE_SIZE = init_offsets g V (a / g.PAGE_SIZE)
        · exfalso
          have hq : a / g.PAGE_SIZE = i := by
            rcases Decidable.not_and_iff_or_not.mp h3 with h | h
            · omega
            · exact absurd h4.2 h
          apply h2
          have hoff : a % g.PAGE_SIZE = init_offsets g V i := by
            rw [← hq]; exact h4.2
          rw [← hdm, hq, hoff]
          ring
        · rw [if_neg h4]
  · rfl

/-- Zeroing the freshly installed chain frame is a no-op: it is already
zero. -/
theorem chain_zero_frame_noop (g : Geometry) (V i : Nat) :
    zero_frame g (chainState g V (i + 1)) ((i : Int) + 1) 0 g.PAGE_SIZE =
      chainState g V (i + 1) := by
  have hPS : 0 < g.PAGE_SIZE := Nat.pos_pow_of_pos _ (by norm_num)
  have htn : ((i : Int) + 1).toNat = i + 1 := by omega
  ext a
  · rw [zero_frame_mem, htn]
    by_cases h1 : (i + 1) * g.PAGE_SIZE + 0 ≤ a ∧ a < (i + 1) * g.PAGE_SIZE + 0 + g.PAGE_SIZE
    · rw [if_pos h1]
      show (0 : Int) = chainMem g V (i + 1) a
      have hq : a / g.PAGE_SIZE = i + 1 :=
        Nat.div_eq_of_lt_le (by omega) (by rw [Nat.succ_mul]; omega)
      unfold chainMem
      rw [if_neg (fun hcon => by omega)]
    · rw [if_neg h1]
  · rw [zero_frame_swap]

/-- Restoring the never-evicted page into the freshly installed leaf frame
is a no-op: the backing store is empty and the frame already zero. -/
theorem chain_restore_noop (g : Geometry) (V i pn : Nat) :
    PMrestore g (chainState g V (i + 1)) (i + 1) pn = chainState g V (i + 1) := by
  have hPS : 0 < g.PAGE_SIZE := Nat.pos_pow_of_pos _ (by norm_num)
  ext a
  · show (if (i + 1) * g.PAGE_SIZE ≤ a ∧ a < (i + 1) * g.PAGE_SIZE + g.PAGE_SIZE then
      (match (none : Option (Nat → Int)) with
        | some w => w (a - (i + 1) * g.PAGE_SIZE)
        | none => 0)
      else chainMem g V (i + 1) a) = chainMem g V (i + 1) a
    by_cases h1 : (i + 1) * g.PAGE_SIZE ≤ a ∧ a < (i + 1) * g.PAGE_SIZE + g.PAGE_SIZE
    · rw [if_pos h1]
      show (0 : Int) = chainMem g V (i + 1) a
      have hq : a / g.PAGE_SIZE = i + 1 :=
        Nat.div_eq_of_lt_le (by omega) (by rw [Nat.succ_mul]; omega)
      unfold chainMem
      rw [if_neg (fun hcon => by omega)]
    · rw [if_neg h1]
  · rfl

/-- Folding `max` over the integer casts of `s + 1, …, s + j`. -/
theorem foldl_max_range_cast :
    ∀ (j s : Nat) (m : Int),
      ((List.range' (s + 1) j).map (fun n => ((n : Nat) : Int))).foldl max m =
        if j = 0 then m else max m (((s + j : Nat)) : Int) := by
  intro j
  induction j with
  | zero => intro s m; rfl
  | succ j ih =>
    intro s m
    rw [List.range'_succ, List.map_cons, List.foldl_cons, ih (s + 1)]
    by_cases hj : j = 0
    · subst hj
      rw [if_pos rfl, if_neg (by omega)]
    · rw [if_neg hj, if_neg (by omega), max_assoc,
        max_eq_right (by exact_mod_cast by omega : ((s + 1 : Nat) : Int) ≤ ((s + 1 + j : Nat) : Int))]
      congr 2
      omega

/-- The finder invocation of the first translation's level `i`: a pure
traversal of the chain ending in priority 2 with `maxFrame = i`. -/
theorem chain_finder_step (g : Geometry) (V i pn : Nat) (hi : i < g.TABLES_DEPTH)
    (hNF : g.TABLES_DEPTH < g.NUM_FRAMES) :
    find_next_frame g g.TABLES_DEPTH (chainState g V i)
        ⟨((i : Nat) : Int), 0, pn, 0, 0, 0, 0, 0, 0⟩ 0 0 0 0 =
      (⟨((i : Nat) : Int), ((i : Nat) : Int), pn, 0, 0, 0, 0, 0, 2⟩, chainState g V i) := by
  obtain ⟨d, hd⟩ : ∃ d, g.TABLES_DEPTH = d + 1 := ⟨g.TABLES_DEPTH - 1, by omega⟩
  have hq : hasQualifying g (chainState g V i) ((i : Nat) : Int) (d + 1) 0 = false := by
    have h := chain_hasQualifying g V i hi i 0 (by omega)
    rw [Nat.sub_zero, hd] at h
    simpa using h
  have hleaves := chain_leavesList g V i hi i 0 0 0 0 (by omega)
  rw [Nat.sub_zero, hd] at hleaves
  simp only [Nat.cast_zero] at hleaves
  have hslots := chain_slotValues g V i hi i 0 (by omega)
  rw [Nat.sub_zero, hd] at hslots
  simp only [Nat.cast_zero] at hslots
  rw [hd, fnf_top_A g (chainState g V i) ((i : Nat) : Int) pn d hq, hleaves, hslots,
    foldLeaves_nil, foldl_max_range_cast i 0]
  have hmax : (if i = 0 then (0 : Int) else max 0 (((0 + i : Nat)) : Int)) =
      ((i : Nat) : Int) := by
    by_cases h0 : i = 0
    · simp [h0]
    · rw [if_neg h0, Nat.zero_add, max_eq_right (by positivity)]
  rw [hmax, empty_frame_not_found]
  rw [if_pos (by dsimp only; exact_mod_cast (by omega : i + 1 < g.NUM_FRAMES))]

/-- The walk loop of the first translation: from the chain of length `i` it
builds the full chain and resolves the leaf frame `TABLES_DEPTH`. -/
theorem chain_fpa_loop (g : Geometry) (V : Nat) (hNF : g.TABLES_DEPTH < g.NUM_FRAMES) :
    ∀ (n i : Nat), i + n = g.TABLES_DEPTH → 0 < n →
      fpa_loop g (chainState g V i) (init_offsets g V) (V >>> g.OFFSET_WIDTH)
          ((i : Nat) : Int) ((i : Nat) : Int) i n =
        (((g.TABLES_DEPTH : Nat) : Int), chainState g V g.TABLES_DEPTH) := by
  intro n
  induction n with
  | zero => intro i h1 h2; omega
  | succ n ih =>
    intro i h1 h2
    have hi : i < g.TABLES_DEPTH := by omega
    have hread : PMread (chainState g V i)
        (((i : Nat) : Int).toNat * g.PAGE_SIZE + init_offsets g V i) = 0 := by
      rw [PMread, Int.toNat_natCast]
      show chainMem g V i (i * g.PAGE_SIZE + init_offsets g V i) = 0
      rw [chainMem_at g V i i _ (init_offsets_lt ..), if_neg (fun h => absurd h.1 (by omega))]
    simp only [fpa_loop]
    rw [hread, if_pos rfl, chain_finder_step g V i (V >>> g.OFFSET_WIDTH) hi hNF]
    dsimp only
    norm_num
    have htn : ((i : Int) + 1).toNat = i + 1 := by omega
    have hcast : ((i : Int) + 1) = (((i + 1 : Nat)) : Int) := by push_cast; ring
    rw [chain_install g V i]
    by_cases hn : n = 0
    · subst hn
      rw [if_pos (by omega), chain_restore_noop g V i (V >>> g.OFFSET_WIDTH),
        fpa_loop_zero]
      have hTD : g.TABLES_DEPTH = i + 1 := by omega
      rw [hTD, hcast]
    · rw [if_neg (by omega), chain_zero_frame_noop g V i]
      rw [hcast]
      exact ih (i + 1) (by omega) (by omega)

/-- `find_physical_address` of the very first translation: from the empty
chain it builds the full chain and returns leaf frame `TABLES_DEPTH`. -/
theorem chain_fpa (g : Geometry) (V : Nat) (hTD : 0 < g.TABLES_DEPTH)
    (hNF : g.TABLES_DEPTH < g.NUM_FRAMES) :
    find_physical_address g (chainState g V 0) V (init_offsets g V) =
      (((g.TABLES_DEPTH : Nat) : Int), chainState g V g.TABLES_DEPTH) := by
  have h := chain_fpa_loop g V hNF g.TABLES_DEPTH 0 (by omega) hTD
  simp only [Nat.cast_zero] at h
  rw [find_physical_address]
  exact h

/-- Once the path of `V` is fully mapped (slot `o[k]` of frame `k` holds
`k + 1` for every level), a translation walks it reading only non-zero slots
and changes nothing. -/
theorem full_walk_fpa_loop (g : Geometry) (V : Nat) (u : PMState)
    (hpath : ∀ k, k < g.TABLES_DEPTH →
      u.mem (k * g.PAGE_SIZE + init_offsets g V k) = (k : Int) + 1) :
    ∀ (n i : Nat), i + n = g.TABLES_DEPTH → 0 < n →
      fpa_loop g u (init_offsets g V) (V >>> g.OFFSET_WIDTH) ((i : Nat) : Int)
          ((i : Nat) : Int) i n = (((g.TABLES_DEPTH : Nat) : Int), u) := by
  intro n
  induction n with
  | zero => intro i h1 h2; omega
  | succ n ih =>
    intro i h1 h2
    simp only [fpa_loop]
    have hread : PMread u (((i : Nat) : Int).toNat * g.PAGE_SIZE + init_offsets g V i) =
        (i : Int) + 1 := by
      rw [PMread, Int.toNat_natCast]
      exact hpath i (by omega)
    rw [hread, if_neg (by omega)]
    have hcast : (i : Int) + 1 = (((i + 1 : Nat)) : Int) := by push_cast; ring
    rw [hcast]
    by_cases hn : n = 0
    · subst hn
      rw [fpa_loop_zero, show i + 1 = g.TABLES_DEPTH by omega]
    · exact ih (i + 1) (by omega) (by omega)

/-- A path slot of `V` is never the leaf word address of `V`. -/
theorem path_slot_ne_leaf (g : Geometry) (V k : Nat) (hk : k < g.TABLES_DEPTH) :
    k * g.PAGE_SIZE + init_offsets g V k ≠
      g.TABLES_DEPTH * g.PAGE_SIZE + init_offsets g V g.TABLES_DEPTH := by
  intro h
  have h1 : k * g.PAGE_SIZE + init_offsets g V k < (k + 1) * g.PAGE_SIZE := by
    rw [Nat.succ_mul]
    have := init_offsets_lt g V k
    omega
  have h2 : (k + 1) * g.PAGE_SIZE ≤ g.TABLES_DEPTH * g.PAGE_SIZE :=
    Nat.mul_le_mul_right _ (by omega)
  omega

theorem valid_TD_pos (g : Geometry) (h : g.Valid) : 0 < g.TABLES_DEPTH := by
  obtain ⟨h1, h2, h3, h4, h5⟩ := h
  rw [h5]
  exact Nat.div_pos (by omega) (by omega)

theorem page_in_range (g : Geometry) (h : g.Valid) (V : Nat)
    (hV : V < g.VIRTUAL_MEMORY_SIZE) : V >>> g.OFFSET_WIDTH < g.NUM_PAGES := by
  obtain ⟨h1, h2, h3, h4, h5⟩ := h
  have hNP : g.NUM_PAGES = 2 ^ (g.VIRTUAL_ADDRESS_WIDTH - g.OFFSET_WIDTH) := by
    show g.VIRTUAL_MEMORY_SIZE / g.PAGE_SIZE = _
    rw [Geometry.VIRTUAL_MEMORY_SIZE, Geometry.PAGE_SIZE,
      Nat.pow_div (le_of_lt h3) (by norm_num)]
  rw [hNP, Nat.shiftRight_eq_div_pow,
    Nat.div_lt_iff_lt_mul (Nat.pos_pow_of_pos _ (by norm_num)), ← Nat.pow_add,
    Nat.sub_add_cancel (le_of_lt h3)]
  exact hV

/-!
## Cyclic distance and the victim fold
-/

theorem cyclic_distance_nonneg (g : Geometry) (p1 p2 : Nat) :
    0 ≤ cyclic_distance g p1 p2 := by
  simp only [cyclic_distance]
  split <;> positivity

theorem cyclic_distance_formula (g : Geometry) (p1 p2 : Nat)
    (h1 : p1 < g.NUM_PAGES) (h2 : p2 < g.NUM_PAGES) :
    cyclic_distance g p1 p2 =
      min (|(p1 : Int) - (p2 : Int)|) ((g.NUM_PAGES : Int) - |(p1 : Int) - (p2 : Int)|) := by
  simp only [cyclic_distance]
  rw [min_def]
  rcases abs_cases ((p1 : Int) - (p2 : Int)) with ⟨he, _⟩ | ⟨he, _⟩ <;> rw [he] <;>
    split_ifs <;> omega

theorem le_foldl_max (l : List Int) (a x : Int) (hx : x ∈ l) : x ≤ l.foldl max a := by
  induction l generalizing a with
  | nil => cases hx
  | cons y l ih =>
    rcases List.mem_cons.mp hx with rfl | hx
    · rw [List.foldl_cons]
      calc x ≤ max a x := le_max_right ..
        _ ≤ l.foldl max (max a x) := by
          clear hx ih
          induction l generalizing a x with
          | nil => exact le_refl _
          | cons z l ih2 => exact le_trans (le_max_left _ z) (ih2 ..)
    · rw [List.foldl_cons]
      exact ih (max a y) hx

theorem init_le_foldl_max (l : List Int) (a : Int) : a ≤ l.foldl max a := by
  induction l generalizing a with
  | nil => exact le_refl _
  | cons y l ih => exact le_trans (le_max_left a y) (ih _)

/-- The victim update is a running maximum on `maxCyclicDist`. -/
theorem umcd_maxCyclicDist (g : Geometry) (a : SearchArguments) (f : Int) (cv p o : Nat) :
    (update_max_cyclic_distance g a f cv p o).maxCyclicDist =
      max a.maxCyclicDist (cyclic_distance g a.pageNumber cv) := by
  simp only [update_max_cyclic_distance]
  split
  · exact (max_eq_right (by assumption)).symm
  · exact (max_eq_left (le_of_not_le (by assumption))).symm

theorem foldLeaves_maxCyclicDist (g : Geometry) (a : SearchArguments)
    (L : List (Int × Nat × Nat × Nat)) :
    (foldLeaves g a L).maxCyclicDist =
      (L.map (fun l => cyclic_distance g a.pageNumber l.2.1)).foldl max a.maxCyclicDist := by
  induction L generalizing a with
  | nil => rfl
  | cons l L ih =>
    rw [foldLeaves_cons, ih, List.map_cons, List.foldl_cons, umcd_maxCyclicDist,
      umcd_pageNumber]

/-- Folding the victim update over visited leaves either changes nothing (all
candidates lie strictly below the incoming record) or ends on a candidate
`l` of the list such that every later candidate is strictly worse — the
last candidate attaining the running maximum, because the source compares
with `>=`. -/
theorem foldLeaves_cases (g : Geometry) (a : SearchArguments)
    (L : List (Int × Nat × Nat × Nat)) :
    (foldLeaves g a L = a ∧
      ∀ m ∈ L, cyclic_distance g a.pageNumber m.2.1 < a.maxCyclicDist) ∨
    (∃ L1 l L2, L = L1 ++ l :: L2 ∧
      (foldLeaves g a L).maxCyclicFrame = l.1 ∧
      (foldLeaves g a L).maxCyclicPage = l.2.1 ∧
      (foldLeaves g a L).maxCyclicParent = l.2.2.1 * g.PAGE_SIZE + l.2.2.2 ∧
      (foldLeaves g a L).maxCyclicDist = cyclic_distance g a.pageNumber l.2.1 ∧
      ∀ m ∈ L2, cyclic_distance g a.pageNumber m.2.1 <
        cyclic_distance g a.pageNumber l.2.1) := by
  induction L using List.reverseRecOn with
  | nil => exact Or.inl ⟨rfl, by simp⟩
  | append_singleton L m ih =>
    rw [foldLeaves_append, foldLeaves_cons, foldLeaves_nil]
    by_cases hm : cyclic_distance g (foldLeaves g a L).pageNumber m.2.1 ≥
        (foldLeaves g a L).maxCyclicDist
    · refine Or.inr ⟨L, m, [], by simp, ?_, ?_, ?_, ?_, by simp⟩ <;>
        (simp only [update_max_cyclic_distance]; rw [if_pos hm]; try simp [foldLeaves_pageNumber])
    · have hlt : cyclic_distance g a.pageNumber m.2.1 < (foldLeaves g a L).maxCyclicDist := by
        rw [foldLeaves_pageNumber] at hm
        exact lt_of_not_le (by simpa using hm)
      have hkeep : update_max_cyclic_distance g (foldLeaves g a L) m.1 m.2.1 m.2.2.1 m.2.2.2 =
          foldLeaves g a L := by
        simp only [update_max_cyclic_distance]
        rw [if_neg hm]
      rcases ih with ⟨heq, hall⟩ | ⟨L1, l, L2, hsplit, h1, h2, h3, h4, h5⟩
      · refine Or.inl ⟨by rw [hkeep, heq], ?_⟩
        intro x hx
        rcases List.mem_append.mp hx with hx | hx
        · exact hall x hx
        · rw [List.mem_singleton.mp hx]
          rw [heq] at hlt
          exact hlt
      · refine Or.inr ⟨L1, l, L2 ++ [m], by rw [hsplit, List.append_assoc]; rfl,
          by rw [hkeep]; exact h1, by rw [hkeep]; exact h2, by rw [hkeep]; exact h3,
          by rw [hkeep]; exact h4, ?_⟩
        intro x hx
        rcases List.mem_append.mp hx with hx | hx
        · exact h5 x hx
        · rw [List.mem_singleton.mp hx, ← h4]
          exact hlt

/-- `empty_frame_not_found` never touches the victim record. -/
theorem efnf_maxCyclic (g : Geometry) (st : PMState) (a : SearchArguments) :
    (empty_frame_not_found g st a).1.maxCyclicFrame = a.maxCyclicFrame ∧
    (empty_frame_not_found g st a).1.maxCyclicPage = a.maxCyclicPage ∧
    (empty_frame_not_found g st a).1.maxCyclicParent = a.maxCyclicParent ∧
    (empty_frame_not_found g st a).1.maxCyclicDist = a.maxCyclicDist := by
  unfold empty_frame_not_found
  split <;> exact ⟨rfl, rfl, rfl, rfl⟩

/-- The full chain state maps every path slot of `V`. -/
theorem chainFull_path (g : Geometry) (V : Nat) :
    ∀ k, k < g.TABLES_DEPTH →
      (chainState g V g.TABLES_DEPTH).mem (k * g.PAGE_SIZE + init_offsets g V k) =
        (k : Int) + 1 := by
  intro k hk
  rw [chainState_mem g V g.TABLES_DEPTH k _ (init_offsets_lt ..), if_pos ⟨hk, rfl⟩]

/-- Writing the leaf word of `V` does not disturb the path slots of `V`. -/
theorem write_preserves_path (g : Geometry) (V : Nat) (u : PMState) (x : Int)
    (hpath : ∀ k, k < g.TABLES_DEPTH →
      u.mem (k * g.PAGE_SIZE + init_offsets g V k) = (k : Int) + 1) :
    ∀ k, k < g.TABLES_DEPTH →
      (PMwrite u (g.TABLES_DEPTH * g.PAGE_SIZE + init_offsets g V g.TABLES_DEPTH) x).mem
        (k * g.PAGE_SIZE + init_offsets g V k) = (k : Int) + 1 := by
  intro k hk
  show (if k * g.PAGE_SIZE + init_offsets g V k =
      g.TABLES_DEPTH * g.PAGE_SIZE + init_offsets g V g.TABLES_DEPTH then x
    else u.mem (k * g.PAGE_SIZE + init_offsets g V k)) = (k : Int) + 1
  rw [if_neg (path_slot_ne_leaf g V k hk)]
  exact hpath k hk

/-- A translation over a fully mapped path returns leaf frame `TABLES_DEPTH`'s
stand-in — the frame stored at the last level — and leaves the state unchanged. -/
theorem full_walk_fpa (g : Geometry) (V : Nat) (u : PMState)
    (hpath : ∀ k, k < g.TABLES_DEPTH →
      u.mem (k * g.PAGE_SIZE + init_offsets g V k) = (k : Int) + 1)
    (hTD : 0 < g.TABLES_DEPTH) :
    find_physical_address g u V (init_offsets g V) =
      (((g.TABLES_DEPTH : Nat) : Int), u) := by
  have h := full_walk_fpa_loop g V u hpath g.TABLES_DEPTH 0 (by omega) hTD
  simp only [Nat.cast_zero] at h
  rw [find_physical_address]
  exact h

/-- `VMwrite` over a fully mapped path writes exactly the leaf word. -/
theorem VMwrite_full_walk (g : Geometry) (V : Nat) (u : PMState) (x : Int)
    (hpath : ∀ k, k < g.TABLES_DEPTH →
      u.mem (k * g.PAGE_SIZE + init_offsets g V k) = (k : Int) + 1)
    (hTD : 0 < g.TABLES_DEPTH)
    (h1 : ¬ g.VIRTUAL_MEMORY_SIZE ≤ V) (h2 : ¬ g.NUM_PAGES ≤ V >>> g.OFFSET_WIDTH) :
    VMwrite g u V x =
      (1, PMwrite u (g.TABLES_DEPTH * g.PAGE_SIZE + init_offsets g V g.TABLES_DEPTH) x) := by
  rw [VMwrite, if_neg h1, if_neg h2]
  dsimp only
  rw [full_walk_fpa g V u hpath hTD, Int.toNat_natCast]

/-- `VMread` over a fully mapped path returns exactly the leaf word. -/
theorem VMread_full_walk (g : Geometry) (V : Nat) (u : PMState) (w : Int)
    (hpath : ∀ k, k < g.TABLES_DEPTH →
      u.mem (k * g.PAGE_SIZE + init_offsets g V k) = (k : Int) + 1)
    (hTD : 0 < g.TABLES_DEPTH)
    (h1 : ¬ g.VIRTUAL_MEMORY_SIZE ≤ V) (h2 : ¬ g.NUM_PAGES ≤ V >>> g.OFFSET_WIDTH) :
    VMread g u V w =
      (1, u.mem (g.TABLES_DEPTH * g.PAGE_SIZE + init_offsets g V g.TABLES_DEPTH), u) := by
  rw [VMread, if_neg h1, if_neg h2]
  dsimp only
  rw [full_walk_fpa g V u hpath hTD, Int.toNat_natCast]
  rfl

/-!
## Claims
-/

/-- C5: `VMread` and `VMwrite` return 0 exactly when
`V ≥ VIRTUAL_MEMORY_SIZE` or `V >> OFFSET_WIDTH ≥ NUM_PAGES`; on that 0
return the physical memory (and the read's out-parameter) are completely
unchanged; for every in-range `V` they return 1 — there is no other failure
and in particular no out-of-memory error. -/
theorem claim_C5 (g : Geometry) (st : PMState) (V : Nat) (x y : Int) :
    ((VMread g st V y).1 = 0 ↔
      g.VIRTUAL_MEMORY_SIZE ≤ V ∨ g.NUM_PAGES ≤ V >>> g.OFFSET_WIDTH) ∧
    ((VMwrite g st V x).1 = 0 ↔
      g.VIRTUAL_MEMORY_SIZE ≤ V ∨ g.NUM_PAGES ≤ V >>> g.OFFSET_WIDTH) ∧
    ((g.VIRTUAL_MEMORY_SIZE ≤ V ∨ g.NUM_PAGES ≤ V >>> g.OFFSET_WIDTH) →
      VMread g st V y = (0, y, st) ∧ VMwrite g st V x = (0, st)) ∧
    (¬(g.VIRTUAL_MEMORY_SIZE ≤ V ∨ g.NUM_PAGES ≤ V >>> g.OFFSET_WIDTH) →
      (VMread g st V y).1 = 1 ∧ (VMwrite g st V x).1 = 1) := by
  unfold VMread VMwrite
  by_cases h1 : g.VIRTUAL_MEMORY_SIZE ≤ V
  · simp [h1]
  · by_cases h2 : g.NUM_PAGES ≤ V >>> g.OFFSET_WIDTH
    · simp [h1, h2]
    · simp [h1, h2]

/-- Witness for C5 at the spec's scenario geometry: address 256 is out of
range and rejected without touching anything, address 0 succeeds. -/
theorem claim_C5_witness :
    (VMread gSane (stInit gSane) 256 7 = (0, 7, stInit gSane)) ∧
    (VMread gSane (stInit gSane) 0 7).1 = 1 :=
  ⟨((claim_C5 gSane (stInit gSane) 256 0 7).2.2.1 (by left; decide)).1,
   ((claim_C5 gSane (stInit gSane) 0 0 7).2.2.2 (by rintro (h | h) <;> revert h <;> decide)).1⟩

/-- C10: for the same starting state and the same in-range virtual address,
`VMread` and `VMwrite` both delegate to the same `find_physical_address`
call — hence perform the identical sequence of page-table reads, slot
writes, frame zeroings, evictions and restores — and differ only in the
final word access at the resolved physical address.  Moreover a successful
`VMread` may modify physical memory and trigger `PMevict`: under `gSane`,
with all frames in use, reading page 3 evicts page 0 (its backing-store
entry appears) and unlinks its root slot. -/
theorem claim_C10 :
    (∀ (g : Geometry) (st : PMState) (V : Nat) (x y : Int),
      ¬ g.VIRTUAL_MEMORY_SIZE ≤ V → ¬ g.NUM_PAGES ≤ V >>> g.OFFSET_WIDTH →
      VMread g st V y =
        (1, PMread (find_physical_address g st V (init_offsets g V)).2
              ((find_physical_address g st V (init_offsets g V)).1.toNat * g.PAGE_SIZE +
                init_offsets g V g.TABLES_DEPTH),
          (find_physical_address g st V (init_offsets g V)).2) ∧
      VMwrite g st V x =
        (1, PMwrite (find_physical_address g st V (init_offsets g V)).2
              ((find_physical_address g st V (init_offsets g V)).1.toNat * g.PAGE_SIZE +
                init_offsets g V g.TABLES_DEPTH) x)) ∧
    ((VMread gSane stFull 48 0).1 = 1 ∧
      stFull.swap 0 = none ∧ ((VMread gSane stFull 48 0).2.2.swap 0).isSome ∧
      stFull.mem 0 = 1 ∧ (VMread gSane stFull 48 0).2.2.mem 0 = 0) := by
  constructor
  · intro g st V x y h1 h2
    unfold VMread VMwrite
    simp [h1, h2]
  · exact ⟨by decide, rfl, by decide, by decide, by decide⟩

/-- C3: on every invocation of the frame finder by the translator (root
frame 0, fresh `SearchArguments` with protected frame `c` and target page
`pn`), the result is determined by the three-tier priority rule, in order:
if the traversal's region contains a non-root, non-protected inner frame
with all `PAGE_SIZE` slots zero, the first such frame in DFS order is
committed — its parent slot is zeroed and that frame is returned
(priority 1); otherwise, writing `maxFrameSeen` for the maximum over all
visited non-zero slot values, if `maxFrameSeen + 1 < NUM_FRAMES` then
`maxFrameSeen + 1` is returned with the state untouched (priority 2);
otherwise the recorded cyclic-distance victim is selected — its parent slot
is zeroed, `evict(victimFrame, victimPage)` is requested, and the victim
frame is returned (priority 3). -/
theorem claim_C3 (g : Geometry) (st : PMState) (c : Int) (pn : Nat) (d : Nat)
    (hd : g.TABLES_DEPTH = d + 1) :
    (hasQualifying g st c g.TABLES_DEPTH 0 = true →
      ∃ e p o, firstQualifying g st c g.TABLES_DEPTH 0 0 0 = some (e, p, o)) ∧
    (∀ (e : Int) (p o : Nat),
      firstQualifying g st c g.TABLES_DEPTH 0 0 0 = some (e, p, o) →
      ∃ a2, find_next_frame g g.TABLES_DEPTH st ⟨c, 0, pn, 0, 0, 0, 0, 0, 0⟩ 0 0 0 0 =
          (a2, PMwrite st (p * g.PAGE_SIZE + o) 0) ∧
        a2.priority = 1 ∧ chosenFrame a2 = e) ∧
    (hasQualifying g st c g.TABLES_DEPTH 0 = false →
      ((({ foldLeaves g ⟨c, 0, pn, 0, 0, 0, 0, 0, 0⟩
            (leavesList g st g.TABLES_DEPTH 0 0 0 0) with
          maxFrame := (slotValues g st g.TABLES_DEPTH 0).foldl max 0 } :
            SearchArguments).maxFrame + 1 < (g.NUM_FRAMES : Int) →
        find_next_frame g g.TABLES_DEPTH st ⟨c, 0, pn, 0, 0, 0, 0, 0, 0⟩ 0 0 0 0 =
          ({ { foldLeaves g ⟨c, 0, pn, 0, 0, 0, 0, 0, 0⟩
                (leavesList g st g.TABLES_DEPTH 0 0 0 0) with
              maxFrame := (slotValues g st g.TABLES_DEPTH 0).foldl max 0 } with
            priority := 2 }, st) ∧
        chosenFrame
          { { foldLeaves g ⟨c, 0, pn, 0, 0, 0, 0, 0, 0⟩
              (leavesList g st g.TABLES_DEPTH 0 0 0 0) with
            maxFrame := (slotValues g st g.TABLES_DEPTH 0).foldl max 0 } with
            priority := 2 } =
          (slotValues g st g.TABLES_DEPTH 0).foldl max 0 + 1) ∧
      (¬(({ foldLeaves g ⟨c, 0, pn, 0, 0, 0, 0, 0, 0⟩
            (leavesList g st g.TABLES_DEPTH 0 0 0 0) with
          maxFrame := (slotValues g st g.TABLES_DEPTH 0).foldl max 0 } :
            SearchArguments).maxFrame + 1 < (g.NUM_FRAMES : Int)) →
        find_next_frame g g.TABLES_DEPTH st ⟨c, 0, pn, 0, 0, 0, 0, 0, 0⟩ 0 0 0 0 =
          ({ { foldLeaves g ⟨c, 0, pn, 0, 0, 0, 0, 0, 0⟩
                (leavesList g st g.TABLES_DEPTH 0 0 0 0) with
              maxFrame := (slotValues g st g.TABLES_DEPTH 0).foldl max 0 } with
            priority := 3 },
            PMevict g
              (PMwrite st
                (foldLeaves g ⟨c, 0, pn, 0, 0, 0, 0, 0, 0⟩
                  (leavesList g st g.TABLES_DEPTH 0 0 0 0)).maxCyclicParent 0)
              (foldLeaves g ⟨c, 0, pn, 0, 0, 0, 0, 0, 0⟩
                (leavesList g st g.TABLES_DEPTH 0 0 0 0)).maxCyclicFrame.toNat
              (foldLeaves g ⟨c, 0, pn, 0, 0, 0, 0, 0, 0⟩
                (leavesList g st g.TABLES_DEPTH 0 0 0 0)).maxCyclicPage) ∧
        chosenFrame
          { { foldLeaves g ⟨c, 0, pn, 0, 0, 0, 0, 0, 0⟩
              (leavesList g st g.TABLES_DEPTH 0 0 0 0) with
            maxFrame := (slotValues g st g.TABLES_DEPTH 0).foldl max 0 } with
            priority := 3 } =
          (foldLeaves g ⟨c, 0, pn, 0, 0, 0, 0, 0, 0⟩
            (leavesList g st g.TABLES_DEPTH 0 0 0 0)).maxCyclicFrame))) := by
  rw [hd]
  refine ⟨?_, ?_, ?_⟩
  · intro h
    have := firstQualifying_isSome g st c (d + 1) 0 0 0
    rw [h] at this
    rcases hfq : firstQualifying g st c (d + 1) 0 0 0 with _ | q
    · rw [hfq] at this; exact absurd this (by simp)
    · exact ⟨q.1, q.2.1, q.2.2, by simp [hfq]⟩
  · intro e p o hq
    obtain ⟨a2, heq, h1, h2, h3⟩ := fnf_top_B g st c pn d e p o hq
    refine ⟨a2, heq, h1, ?_⟩
    rw [chosenFrame]
    simp only [h1, h2]
    norm_num
  · intro hq
    have htop := fnf_top_A g st c pn d hq
    rw [empty_frame_not_found] at htop
    constructor
    · intro hlt
      rw [if_pos (by simpa using hlt)] at htop
      refine ⟨htop, ?_⟩
      rw [chosenFrame]
      norm_num
    · intro hge
      rw [if_neg (by simpa using hge)] at htop
      refine ⟨htop, ?_⟩
      rw [chosenFrame]
      norm_num

/-- Witness for C3: under the spec's scenario geometry, right after
`initialize` the table is empty, so the invocation for page 0 takes
priority 2 and hands out frame `0 + 1 = 1`. -/
theorem claim_C3_witness :
    gSane.TABLES_DEPTH = 0 + 1 ∧
    hasQualifying gSane (stInit gSane) 0 gSane.TABLES_DEPTH 0 = false ∧
    chosenFrame
      { { foldLeaves gSane ⟨0, 0, 0, 0, 0, 0, 0, 0, 0⟩
          (leavesList gSane (stInit gSane) gSane.TABLES_DEPTH 0 0 0 0) with
        maxFrame := (slotValues gSane (stInit gSane) gSane.TABLES_DEPTH 0).foldl max 0 } with
        priority := 2 } =
      (slotValues gSane (stInit gSane) gSane.TABLES_DEPTH 0).foldl max 0 + 1 :=
  ⟨by decide, by decide,
    (((claim_C3 gSane (stInit gSane) 0 0 0 (by decide)).2.2 (by decide)).1 (by decide)).2⟩

/-- C6: first, `cyclic_distance(p1, p2)` equals
`min(|p1 - p2|, NUM_PAGES - |p1 - p2|)` for all pages `p1, p2` in
`[0, NUM_PAGES)`; second, on a full traversal (no priority-1 candidate, so
nothing is pruned), the finder's recorded victim is, among all leaf slots
visited at depth `TABLES_DEPTH` (the list `leavesList`, in DFS order), one
whose page maximises the cyclic distance to the target page, and every
candidate visited after it is strictly worse — on equal distances the
candidate encountered last in DFS order wins, because the source compares
with `>=`. -/
theorem claim_C6 :
    (∀ (g : Geometry) (p1 p2 : Nat), p1 < g.NUM_PAGES → p2 < g.NUM_PAGES →
      cyclic_distance g p1 p2 =
        min (|(p1 : Int) - (p2 : Int)|)
          ((g.NUM_PAGES : Int) - |(p1 : Int) - (p2 : Int)|)) ∧
    (∀ (g : Geometry) (st : PMState) (c : Int) (pn : Nat) (d : Nat),
      g.TABLES_DEPTH = d + 1 →
      hasQualifying g st c g.TABLES_DEPTH 0 = false →
      leavesList g st g.TABLES_DEPTH 0 0 0 0 ≠ [] →
      ∃ L1 l L2,
        leavesList g st g.TABLES_DEPTH 0 0 0 0 = L1 ++ l :: L2 ∧
        (find_next_frame g g.TABLES_DEPTH st
          ⟨c, 0, pn, 0, 0, 0, 0, 0, 0⟩ 0 0 0 0).1.maxCyclicFrame = l.1 ∧
        (find_next_frame g g.TABLES_DEPTH st
          ⟨c, 0, pn, 0, 0, 0, 0, 0, 0⟩ 0 0 0 0).1.maxCyclicPage = l.2.1 ∧
        (find_next_frame g g.TABLES_DEPTH st
          ⟨c, 0, pn, 0, 0, 0, 0, 0, 0⟩ 0 0 0 0).1.maxCyclicParent =
            l.2.2.1 * g.PAGE_SIZE + l.2.2.2 ∧
        (∀ m ∈ leavesList g st g.TABLES_DEPTH 0 0 0 0,
          cyclic_distance g pn m.2.1 ≤ cyclic_distance g pn l.2.1) ∧
        (∀ m ∈ L2, cyclic_distance g pn m.2.1 < cyclic_distance g pn l.2.1)) := by
  constructor
  · exact cyclic_distance_formula
  · intro g st c pn d hd hq hne
    rw [hd] at hq hne ⊢
    have htop := fnf_top_A g st c pn d hq
    rcases foldLeaves_cases g ⟨c, 0, pn, 0, 0, 0, 0, 0, 0⟩
        (leavesList g st (d + 1) 0 0 0 0) with ⟨_, hall⟩ | ⟨L1, l, L2, hsplit, h1, h2, h3, h4, h5⟩
    · obtain ⟨m, hm⟩ := List.exists_mem_of_ne_nil _ hne
      have hlt := hall m hm
      have h0 := cyclic_distance_nonneg g pn m.2.1
      dsimp only at hlt
      omega
    · have hdist : (foldLeaves g ⟨c, 0, pn, 0, 0, 0, 0, 0, 0⟩
          (leavesList g st (d + 1) 0 0 0 0)).maxCyclicDist = cyclic_distance g pn l.2.1 := h4
      refine ⟨L1, l, L2, hsplit, ?_, ?_, ?_, ?_, fun m hm => h5 m hm⟩
      · rw [htop]
        rw [(efnf_maxCyclic ..).1]
        exact h1
      · rw [htop]
        rw [(efnf_maxCyclic ..).2.1]
        exact h2
      · rw [htop]
        rw [(efnf_maxCyclic ..).2.2.1]
        exact h3
      · intro m hm
        rw [← hdist, foldLeaves_maxCyclicDist]
        exact le_foldl_max _ _ _ (List.mem_map_of_mem _ hm)

/-- Witness for C6: the formula at concrete pages of the scenario geometry,
and the last-argmax victim description for a concrete full traversal with
three resident pages. -/
theorem claim_C6_witness :
    (cyclic_distance gSane 3 12 =
      min (|(3 : Int) - (12 : Int)|)
        ((gSane.NUM_PAGES : Int) - |(3 : Int) - (12 : Int)|)) ∧
    (∃ L1 l L2,
      leavesList gSane stFull gSane.TABLES_DEPTH 0 0 0 0 = L1 ++ l :: L2 ∧
      (find_next_frame gSane gSane.TABLES_DEPTH stFull
        ⟨0, 0, 3, 0, 0, 0, 0, 0, 0⟩ 0 0 0 0).1.maxCyclicFrame = l.1 ∧
      (find_next_frame gSane gSane.TABLES_DEPTH stFull
        ⟨0, 0, 3, 0, 0, 0, 0, 0, 0⟩ 0 0 0 0).1.maxCyclicPage = l.2.1 ∧
      (find_next_frame gSane gSane.TABLES_DEPTH stFull
        ⟨0, 0, 3, 0, 0, 0, 0, 0, 0⟩ 0 0 0 0).1.maxCyclicParent =
          l.2.2.1 * gSane.PAGE_SIZE + l.2.2.2 ∧
      (∀ m ∈ leavesList gSane stFull gSane.TABLES_DEPTH 0 0 0 0,
        cyclic_distance gSane 3 m.2.1 ≤ cyclic_distance gSane 3 l.2.1) ∧
      (∀ m ∈ L2, cyclic_distance gSane 3 m.2.1 < cyclic_distance gSane 3 l.2.1)) :=
  ⟨claim_C6.1 gSane 3 12 (by decide) (by decide),
   claim_C6.2 gSane stFull 0 3 0 (by decide) (by decide) (by decide)⟩

/-- C1 (counterexample): under the spec-valid geometry `gTight`
(`NUM_FRAMES = 2 ≤ TABLES_DEPTH = 2`), starting right after `initialize`,
`write(0, 42); write(0, 7); read(0, &z)` succeeds but yields `z = 0 ≠ 7`,
and likewise the immediate `write(0, 42); read(0, &y)` yields `y = 0 ≠ 42`:
the second-level translation evicts with the never-updated victim record
(frame 0), installs frame 0 as the leaf, and the user word lands in the root
table, so the claim fails as stated. -/
theorem claim_C1_counterexample :
    gTight.Valid ∧ 0 < gTight.VIRTUAL_MEMORY_SIZE ∧
    (VMread gTight ((VMwrite gTight ((VMwrite gTight (stInit gTight) 0 42).2) 0 7).2) 0 0).1
      = 1 ∧
    (VMread gTight ((VMwrite gTight ((VMwrite gTight (stInit gTight) 0 42).2) 0 7).2) 0 0).2.1
      = 0 ∧
    ((0 : Int) ≠ 7) ∧
    (VMread gTight ((VMwrite gTight (stInit gTight) 0 42).2) 0 0).2.1 = 0 ∧
    ((0 : Int) ≠ 42) := by decide

/-- C1 (amended: the property additionally requires
`NUM_FRAMES > TABLES_DEPTH`, which rules out the degenerate geometries where
the finder's eviction branch runs with its never-updated victim record): for
every valid geometry with `NUM_FRAMES > TABLES_DEPTH`, every
`V < VIRTUAL_MEMORY_SIZE` and any words `x`, `y`, after `initialize` the
sequence `write(V, x); write(V, y); read(V, &z)` has every call return 1 and
the read set `z = y`; and the immediate `write(V, x); read(V, &y)` with no
intervening accesses yields `y = x`. -/
theorem claim_C1 (g : Geometry) (V : Nat) (x y : Int)
    (hg : g.Valid) (hNF : g.TABLES_DEPTH < g.NUM_FRAMES)
    (hV : V < g.VIRTUAL_MEMORY_SIZE) :
    (VMwrite g ( VMinitialize g PMState.zero) V x).1 = 1 ∧
    (VMwrite g (VMwrite g ( VMinitialize g PMState.zero) V x).2 V y).1 = 1 ∧
    (VMread g (VMwrite g (VMwrite g ( VMinitialize g PMState.zero) V x).2 V y).2 V 0).1 = 1 ∧
    (VMread g (VMwrite g (VMwrite g ( VMinitialize g PMState.zero) V x).2 V y).2 V 0).2.1 = y ∧
    (VMread g (VMwrite g ( VMinitialize g PMState.zero) V x).2 V 0).1 = 1 ∧
    (VMread g (VMwrite g ( VMinitialize g PMState.zero) V x).2 V 0).2.1 = x := by
  have hTD : 0 < g.TABLES_DEPTH := valid_TD_pos g hg
  have h1 : ¬ g.VIRTUAL_MEMORY_SIZE ≤ V := not_le.mpr hV
  have h2 : ¬ g.NUM_PAGES ≤ V >>> g.OFFSET_WIDTH :=
    not_le.mpr (page_in_range g hg V hV)
  have hw1 : VMwrite g ( VMinitialize g PMState.zero) V x =
      (1, PMwrite (chainState g V g.TABLES_DEPTH)
            (g.TABLES_DEPTH * g.PAGE_SIZE + init_offsets g V g.TABLES_DEPTH) x) := by
    rw [ VMinitialize_zero g V, VMwrite, if_neg h1, if_neg h2]
    dsimp only
    rw [chain_fpa g V hTD hNF, Int.toNat_natCast]
  have hpath1 := write_preserves_path g V (chainState g V g.TABLES_DEPTH) x
    (chainFull_path g V)
  have hw2 : VMwrite g
      (PMwrite (chainState g V g.TABLES_DEPTH)
        (g.TABLES_DEPTH * g.PAGE_SIZE + init_offsets g V g.TABLES_DEPTH) x) V y =
      (1, PMwrite
            (PMwrite (chainState g V g.TABLES_DEPTH)
              (g.TABLES_DEPTH * g.PAGE_SIZE + init_offsets g V g.TABLES_DEPTH) x)
            (g.TABLES_DEPTH * g.PAGE_SIZE + init_offsets g V g.TABLES_DEPTH) y) :=
    VMwrite_full_walk g V _ y hpath1 hTD h1 h2
  have hpath2 := write_preserves_path g V _ y hpath1
  have hr2 := VMread_full_walk g V
    (PMwrite
      (PMwrite (chainState g V g.TABLES_DEPTH)
        (g.TABLES_DEPTH * g.PAGE_SIZE + init_offsets g V g.TABLES_DEPTH) x)
      (g.TABLES_DEPTH * g.PAGE_SIZE + init_offsets g V g.TABLES_DEPTH) y) 0
    hpath2 hTD h1 h2
  have hr1 := VMread_full_walk g V
    (PMwrite (chainState g V g.TABLES_DEPTH)
      (g.TABLES_DEPTH * g.PAGE_SIZE + init_offsets g V g.TABLES_DEPTH) x) 0
    hpath1 hTD h1 h2
  rw [hw1, hw2, hr1, hr2]
  simp [PMwrite]

/-- Witness for (amended) C1 at the scenario geometry and a concrete address. -/
theorem claim_C1_witness :
    gSane.Valid ∧ gSane.TABLES_DEPTH < gSane.NUM_FRAMES ∧
    (3 : Nat) < gSane.VIRTUAL_MEMORY_SIZE ∧
    ((VMwrite gSane ( VMinitialize gSane PMState.zero) 3 5).1 = 1 ∧
     (VMwrite gSane (VMwrite gSane ( VMinitialize gSane PMState.zero) 3 5).2 3 7).1 = 1 ∧
     (VMread gSane
       (VMwrite gSane (VMwrite gSane ( VMinitialize gSane PMState.zero) 3 5).2 3 7).2 3 0).1
       = 1 ∧
     (VMread gSane
       (VMwrite gSane (VMwrite gSane ( VMinitialize gSane PMState.zero) 3 5).2 3 7).2 3 0).2.1
       = 7 ∧
     (VMread gSane (VMwrite gSane ( VMinitialize gSane PMState.zero) 3 5).2 3 0).1 = 1 ∧
     (VMread gSane (VMwrite gSane ( VMinitialize gSane PMState.zero) 3 5).2 3 0).2.1 = 5) :=
  ⟨by decide, by decide, by decide, claim_C1 gSane 3 5 7 (by decide) (by decide) (by decide)⟩

/-- C2 (failing run): under the spec-valid geometry `gTight`, the very first
translation after `initialize` (for `V = 0`, during `write(0, 42)`, which
reports success) violates every part of the claimed output contract of
`find_physical_address`: the returned leaf frame `F` is 0 — the root table
itself, not a separate leaf; in the post-translation state, for every depth
`i < TABLES_DEPTH` the slot `o[i]` of the frame reached at depth `i` along
the split of `V` from frame 0 (`walkFrame`) is zero — so no slot on the
path is non-zero, let alone the entire path; and the ensuing word access
`F * PAGE_SIZE + o[TABLES_DEPTH]` falls inside the root table
(address `< PAGE_SIZE`), addressing a page-table word rather than a word of
a leaf frame holding page `V >> OFFSET_WIDTH`. -/
theorem claim_C2_code_bug :
    gTight.Valid ∧
    (VMwrite gTight (stInit gTight) 0 42).1 = 1 ∧
    (find_physical_address gTight (stInit gTight) 0 (init_offsets gTight 0)).1 = 0 ∧
    (∀ i, i < gTight.TABLES_DEPTH →
      (find_physical_address gTight (stInit gTight) 0 (init_offsets gTight 0)).2.mem
        ((walkFrame gTight
            (find_physical_address gTight (stInit gTight) 0 (init_offsets gTight 0)).2
            0 i).toNat * gTight.PAGE_SIZE + init_offsets gTight 0 i) = 0) ∧
    (find_physical_address gTight (stInit gTight) 0 (init_offsets gTight 0)).1.toNat *
        gTight.PAGE_SIZE + init_offsets gTight 0 gTight.TABLES_DEPTH <
      gTight.PAGE_SIZE := by decide

/-- C4 (failing run): under the spec-valid geometry `gTight`
(`NUM_FRAMES = 2`), the second-level finder invocation of the first
`write(0, 42)` after `initialize` — a reachable invocation, with protected
frame 1 — ends in priority 3 with the victim record still at its initial
value, so the finder hands frame 0 (the root) to the translator: the
returned frame is frame 0, violating the claim. -/
theorem claim_C4_code_bug :
    gTight.Valid ∧ 2 ≤ gTight.NUM_FRAMES ∧
    (find_next_frame gTight gTight.TABLES_DEPTH stMid
        ⟨1, 0, 0, 0, 0, 0, 0, 0, 0⟩ 0 0 0 0).1.priority = 3 ∧
    (find_next_frame gTight gTight.TABLES_DEPTH stMid
        ⟨1, 0, 0, 0, 0, 0, 0, 0, 0⟩ 0 0 0 0).1.maxCyclicFrame = 0 ∧
    chosenFrame
      (find_next_frame gTight gTight.TABLES_DEPTH stMid
        ⟨1, 0, 0, 0, 0, 0, 0, 0, 0⟩ 0 0 0 0).1 = 0 ∧
    (find_physical_address gTight (stInit gTight) 0 (init_offsets gTight 0)).1 = 0 := by
  decide

/-- C7 (failing run): under the spec-valid geometry `gTight3`
(`PAGE_SIZE = 2`, `NUM_FRAMES = 2`, `TABLES_DEPTH = 3`), after the completed
call sequence `initialize(); write(0, 9); read(8, &y); write(1, 9)` the
page-table structure rooted at frame 0 reads: root slot 0 holds 1 (depth 1),
frame 1 slot 1 holds 9 (depth 2), and frame 9 slot 0 holds 1 again
(depth 3 = `TABLES_DEPTH`): frame 1 is the value of two distinct non-zero
slots on root paths (in-degree 2) and lies on the cycle `1 → 9 → 1`, so the
structure is neither a tree nor acyclic. -/
theorem claim_C7_code_bug :
    gTight3.Valid ∧
    stLoop.mem (0 * gTight3.PAGE_SIZE + 0) = 1 ∧
    stLoop.mem (1 * gTight3.PAGE_SIZE + 1) = 9 ∧
    stLoop.mem (9 * gTight3.PAGE_SIZE + 0) = 1 := by decide

/-- C8 (failing run): `stLoop` is reached from `initialize` by writes to
virtual addresses 0 and 1 only (plus one read), yet the never-written
address 5 is then read successfully as 9, not 0. -/
theorem claim_C8_code_bug :
    gTight3.Valid ∧
    (VMread gTight3 stLoop 5 0).1 = 1 ∧
    (VMread gTight3 stLoop 5 0).2.1 = 9 := by decide

/-- C9 (failing run): under the spec-valid geometry `gTight`, after the
completed call `write(7, 9)` from `initialize` (which succeeds), the root
table's slot 1 holds frame index 9: the set of frame indices appearing as
non-zero slot values is `{9}`, which is not a contiguous range `{1, …, k}`
with `k < NUM_FRAMES = 2` (that would force every referenced frame to be 1). -/
theorem claim_C9_code_bug :
    gTight.Valid ∧ gTight.NUM_FRAMES = 2 ∧
    (VMwrite gTight (stInit gTight) 7 9).1 = 1 ∧
    (VMwrite gTight (stInit gTight) 7 9).2.mem (0 * gTight.PAGE_SIZE + 1) = 9 := by decide

/-- Witness for C10 at a concrete in-range input. -/
theorem claim_C10_witness :
    VMread gSane (stInit gSane) 0 5 =
      (1, PMread (find_physical_address gSane (stInit gSane) 0 (init_offsets gSane 0)).2
            ((find_physical_address gSane (stInit gSane) 0
                (init_offsets gSane 0)).1.toNat * gSane.PAGE_SIZE +
              init_offsets gSane 0 gSane.TABLES_DEPTH),
        (find_physical_address gSane (stInit gSane) 0 (init_offsets gSane 0)).2) :=
  (claim_C10.1 gSane (stInit gSane) 0 1 5 (by decide) (by decide)).1

end VirtualMemory
